import Mathlib

/-!
Verification development for the PASU (Patient Allocation Scheduling with
Uncertainty) solver.  The definitions below are a shallow embedding of the
C++ source (`pasu_solution.cpp`, with `PASU_3/PASU_3.cpp` as a near-identical
second copy): the global parallel arrays become a `PASUInstance` record, the
mutable global schedule/ledger state becomes an explicit `BuildState` value,
and `rand()` becomes an explicit stream `rng : Nat → Nat`.  C++ `unsigned`
values are modelled as `Nat` (ledger cells as `Int`, so that the
"never negative" invariant is a real statement and not a typing artifact);
where an `unsigned` subtraction or comparison in the source can wrap, the
embedding reproduces the wrapped behaviour explicitly and says so in a
comment.
-/

namespace PASU

/- Enums from the source. -/

inductive Gender | MALE | FEMALE
deriving DecidableEq

inductive GenderPolicy | SAME_GENDER | MALE_ONLY | FEMALE_ONLY | TOGETHER
deriving DecidableEq

inductive Request | NEEDED | PREFERRED | DONT_CARE
deriving DecidableEq

inductive DoctoringLevel | COMPLETE | PARTIAL | NONE
deriving DecidableEq

/- Patient status tags are stored by the source in `schedule[p][0]` as plain
unsigned values (the `Tag` enum), so we keep them as numeric constants. -/

def UNREGISTERED : Nat := 0

def REGISTERED : Nat := 1

def ADMITTED : Nat := 2

def DISCHARGED : Nat := 3

/- `struct Rooms` (the `name` string is only used for printing and is
omitted); `struct Patients` (`tday` is never read in the modelled code). -/

structure Rooms where
  capacity : Nat
  department : Nat
  policy : GenderPolicy
deriving DecidableEq

structure Patients where
  age : Nat
  gender : Gender
  rday : Nat
  aday : Nat
  dday : Nat
  valid_dday : Nat
  var : Nat
  max_aday : Nat
  preferred_cap : Nat
deriving DecidableEq

instance : Inhabited Rooms := ⟨⟨0, 0, GenderPolicy.SAME_GENDER⟩⟩

instance : Inhabited Patients := ⟨⟨0, Gender.MALE, 0, 0, 0, 0, 0, 0, 0⟩⟩

/- The pre-set penalty weights (globals in the source). -/

def PREFERRED_PROPERTY_WEIGHT : Nat := 20

def PREFERENCE_WEIGHT : Nat := 10

def SPECIALISM_WEIGHT : Nat := 20

def GENDER_WEIGHT : Nat := 50

/- `unsigned MAX_CAPACITY;` is declared at namespace scope and never assigned
anywhere in either source file, so (C++ zero-initialization of globals) its
value is 0 throughout the run. -/

def MAX_CAPACITY : Nat := 0

/- The static instance data, as `prep_data` leaves it: the resize defaults of
the source vectors (`room_property` false, `dept_specialism_level` NONE,
`department_age_limits` (0,120), `patient_property_level` DONT_CARE) are the
defaults used by the `getD` accessors below. -/

structure PASUInstance where
  num_rooms : Nat
  num_features : Nat
  num_departments : Nat
  num_specialisms : Nat
  num_patients : Nat
  num_days : Nat
  rooms : List Rooms
  patients : List Patients
  room_property : List (List Bool)
  dept_specialism_level : List (List DoctoringLevel)
  department_age_limits : List (Nat × Nat)
  patient_property_level : List (List Request)
  patient_specialism_needed : List Nat

def PASUInstance.roomAt (inst : PASUInstance) (r : Nat) : Rooms :=
  inst.rooms.getD r default

def PASUInstance.patientAt (inst : PASUInstance) (p : Nat) : Patients :=
  inst.patients.getD p default

def PASUInstance.rprop (inst : PASUInstance) (r pr : Nat) : Bool :=
  (inst.room_property.getD r []).getD pr false

def PASUInstance.plevel (inst : PASUInstance) (p pr : Nat) : Request :=
  (inst.patient_property_level.getD p []).getD pr Request.DONT_CARE

def PASUInstance.deptLevel (inst : PASUInstance) (dep sp : Nat) : DoctoringLevel :=
  (inst.dept_specialism_level.getD dep []).getD sp DoctoringLevel.NONE

def PASUInstance.ageLimits (inst : PASUInstance) (dep : Nat) : Nat × Nat :=
  inst.department_age_limits.getD dep (0, 120)

def PASUInstance.specNeeded (inst : PASUInstance) (p : Nat) : Nat :=
  inst.patient_specialism_needed.getD p 0

/- `compute_cost` — availability half.  The source starts every
`patient_room_availability[p][r]` at `true` and sets it to `false` inside the
feature loop (NEEDED feature absent), on specialism level NONE, and on the two
age-limit checks; the fold below replays those writes in source order. -/

def patient_room_availability (inst : PASUInstance) (p r : Nat) : Bool :=
  let sp := inst.specNeeded p
  let dep := (inst.roomAt r).department
  let lim := inst.ageLimits dep
  let a1 : Bool := (List.range inst.num_features).foldl
    (fun acc pr =>
      if inst.plevel p pr = Request.NEEDED ∧ inst.rprop r pr = false then false else acc) true
  let a2 : Bool := if inst.deptLevel dep sp = DoctoringLevel.NONE then false else a1
  let a3 : Bool := if lim.1 ≠ 0 ∧ (inst.patientAt p).age < lim.1 then false else a2
  if lim.2 ≠ 0 ∧ lim.2 < (inst.patientAt p).age then false else a3

/- `compute_cost` — cost half.  `total_patient_room_cost[p][r]` starts at 0 and
accumulates: PREFERRED_PROPERTY_WEIGHT per PREFERRED-but-absent feature,
PREFERENCE_WEIGHT when `preferred_cap < capacity`, SPECIALISM_WEIGHT on level
PARTIAL, GENDER_WEIGHT on each of the two gender-policy conflicts. -/

def total_patient_room_cost (inst : PASUInstance) (p r : Nat) : Nat :=
  let pat := inst.patientAt p
  let room := inst.roomAt r
  let sp := inst.specNeeded p
  let c1 : Nat := (List.range inst.num_features).foldl
    (fun acc pr =>
      if inst.plevel p pr = Request.PREFERRED ∧ inst.rprop r pr = false
      then acc + PREFERRED_PROPERTY_WEIGHT else acc) 0
  let c2 : Nat := if pat.preferred_cap < room.capacity then c1 + PREFERENCE_WEIGHT else c1
  let c3 : Nat := if inst.deptLevel room.department sp = DoctoringLevel.PARTIAL
                  then c2 + SPECIALISM_WEIGHT else c2
  let c4 : Nat := if room.policy = GenderPolicy.MALE_ONLY ∧ pat.gender = Gender.FEMALE
                  then c3 + GENDER_WEIGHT else c3
  if room.policy = GenderPolicy.FEMALE_ONLY ∧ pat.gender = Gender.MALE
  then c4 + GENDER_WEIGHT else c4

/- Spec-side characterisation of unavailability (the three hard-constraint
clauses of the claim, stated independently of the fold). -/

def available_violation (inst : PASUInstance) (p r : Nat) : Prop :=
  (∃ pr, pr < inst.num_features ∧ inst.plevel p pr = Request.NEEDED ∧ inst.rprop r pr = false)
  ∨ inst.deptLevel (inst.roomAt r).department (inst.specNeeded p) = DoctoringLevel.NONE
  ∨ ((inst.ageLimits (inst.roomAt r).department).1 ≠ 0 ∧
      (inst.patientAt p).age < (inst.ageLimits (inst.roomAt r).department).1)
  ∨ ((inst.ageLimits (inst.roomAt r).department).2 ≠ 0 ∧
      (inst.ageLimits (inst.roomAt r).department).2 < (inst.patientAt p).age)

/- Instance surgery used to state that gender is a soft constraint: replace
patient p's gender, leaving every other datum alone. -/

def setPatientGender (inst : PASUInstance) (p : Nat) (g : Gender) : PASUInstance :=
  { inst with patients := inst.patients.set p { inst.patients.getD p default with gender := g } }

/- `compute_overlap`.  The matrix is modelled as a function `Nat → Nat → Nat`
(initially all 0, as the resize fill); the nested loops
`for p1 < num_patients-1, for p2 in (p1, num_patients), for d in [aday1,dday1)`
increment both `[p1][p2]` and `[p2][p1]` whenever `aday2 ≤ d < dday2`.
(For `num_patients = 0` the C++ bound `num_patients - 1` would wrap; the claim
is vacuous there and the embedding uses the truncated bound.) -/

def obump (m : Nat → Nat → Nat) (i j : Nat) : Nat → Nat → Nat :=
  fun a b => if a = i ∧ b = j then m a b + 1 else m a b

def overlapPair (inst : PASUInstance) (m : Nat → Nat → Nat) (p1 p2 : Nat) : Nat → Nat → Nat :=
  (List.range' (inst.patientAt p1).aday ((inst.patientAt p1).dday - (inst.patientAt p1).aday)).foldl
    (fun m d =>
      if (inst.patientAt p2).aday ≤ d ∧ d < (inst.patientAt p2).dday
      then obump (obump m p1 p2) p2 p1 else m) m

def compute_overlap (inst : PASUInstance) : Nat → Nat → Nat :=
  (List.range (inst.num_patients - 1)).foldl
    (fun m p1 =>
      (List.range' (p1 + 1) (inst.num_patients - (p1 + 1))).foldl
        (fun m p2 => overlapPair inst m p1 p2) m)
    (fun _ _ => 0)

/- Spec-side formula: the number of days d lying in both patients' stay
intervals `[aday, dday)`. -/

def sharedStayDays (P Q : Patients) : Nat :=
  ((Finset.Ico P.aday P.dday) ∩ (Finset.Ico Q.aday Q.dday)).card

/- The per-pair count the inner day loop of `compute_overlap` accumulates. -/

def overlapCount (P Q : Patients) : Nat :=
  (List.range' P.aday (P.dday - P.aday)).countP (fun d => decide (Q.aday ≤ d ∧ d < Q.dday))

/- Lower bound, from the tail of `prep_data`: `patient_min_cost[p]` is an
`int` with sentinel -1, updated over all rooms with
`patient_room_availability[p][r]`; patients still at -1 are reported to
`cerr` (prep_data continues and still returns true) and contribute nothing,
the rest contribute `min_cost * (dday - aday)`. -/

def patient_min_cost (inst : PASUInstance) (p : Nat) : Int :=
  (List.range inst.num_rooms).foldl
    (fun acc r =>
      if patient_room_availability inst p r = true then
        (if acc = -1 ∨ total_patient_room_cost inst p r < acc.toNat
         then (total_patient_room_cost inst p r : Int) else acc)
      else acc)
    (-1)

/- Stay length as the source uses it in the lower bound: `dday - aday`, the
unclipped discharge day (truncated subtraction; the inputs the source reads
have `aday ≤ dday`). -/

def stayLength (pat : Patients) : Nat := pat.dday - pat.aday

def lower_bound (inst : PASUInstance) : Nat :=
  (List.range inst.num_patients).foldl
    (fun acc p =>
      if patient_min_cost inst p = -1 then acc
      else acc + (patient_min_cost inst p).toNat * stayLength (inst.patientAt p))
    0

/- The patients `prep_data` reports to `cerr` as "Infeasible for patient ..."
(the non-fatal report branch of the lower-bound loop). -/

def infeasible_report (inst : PASUInstance) : List Nat :=
  (List.range inst.num_patients).filter (fun p => patient_min_cost inst p = -1)

/- Spec-side formula for the lower bound: over exactly the patients with at
least one available room, the minimum cost over available rooms times the
stay length. -/

def lower_bound_spec (inst : PASUInstance) : Nat :=
  ((List.range inst.num_patients).map (fun p =>
    match (((List.range inst.num_rooms).filter
              (fun r => patient_room_availability inst p r)).map
            (fun r => total_patient_room_cost inst p r)).min? with
    | some m => m * stayLength (inst.patientAt p)
    | none => 0)).sum

/- ### Construction model

The mutable globals `schedule`, `beds`, `beds_tempo` become one `BuildState`.
`schedule p 0` holds the status tag, `schedule p (i+1)` the room for day i
(199 = unassigned, the resize fill value); ledger cells are `Int` so that the
non-negativity invariant is meaningful. -/

structure BuildState where
  schedule : Nat → Nat → Nat
  beds : Nat → Nat → Int
  beds_tempo : Nat → Nat → Int

def setSched (st : BuildState) (p i v : Nat) : BuildState :=
  { st with schedule := fun a b => if a = p ∧ b = i then v else st.schedule a b }

def decTempo (st : BuildState) (r d : Nat) : BuildState :=
  { st with beds_tempo := fun a b =>
      if a = r ∧ b = d then st.beds_tempo a b - 1 else st.beds_tempo a b }

def incTempo (st : BuildState) (r d : Nat) : BuildState :=
  { st with beds_tempo := fun a b =>
      if a = r ∧ b = d then st.beds_tempo a b + 1 else st.beds_tempo a b }

/- The stay span that `arrange_patients` writes: days `aday ≤ i < valid_dday`. -/

def spanList (pat : Patients) : List Nat := List.range' pat.aday (pat.valid_dday - pat.aday)

/- The per-room test of the `while` loop in `arrange_patients`: the inner loop
counts consecutive days with a free bed and the test is
`temp == valid_dday - aday && patient_room_availability[p][ran]` in unsigned
arithmetic — when `aday > valid_dday` the subtraction wraps, so the test is
false; the explicit `aday ≤ valid_dday` conjunct reproduces that. -/

def roomFits (inst : PASUInstance) (st : BuildState) (p ran : Nat) : Bool :=
  let pat := inst.patientAt p
  decide (pat.aday ≤ pat.valid_dday) &&
    (spanList pat).all (fun i => decide (1 ≤ st.beds_tempo ran i)) &&
    patient_room_availability inst p ran

/- A successful placement: for every day of the span, record the room in the
schedule and decrement the working ledger. -/

def placeRoom (inst : PASUInstance) (st : BuildState) (p ran : Nat) : BuildState :=
  (spanList (inst.patientAt p)).foldl
    (fun st i => decTempo (setSched st p (i + 1) ran) ran i) st

/- After the first random room fails, the source sets `ran = --a` repeatedly,
i.e. tries rooms `num_rooms-1, num_rooms-2, ..., 0` and then fails. -/

def tryRoomsDesc (inst : PASUInstance) (st : BuildState) (p : Nat) : Nat → Option BuildState
  | 0 => none
  | a + 1 =>
    if roomFits inst st p a then some (placeRoom inst st p a)
    else tryRoomsDesc inst st p a

def tryRooms (inst : PASUInstance) (st : BuildState) (p ran0 : Nat) : Option BuildState :=
  if roomFits inst st p ran0 then some (placeRoom inst st p ran0)
  else tryRoomsDesc inst st p inst.num_rooms

/- The status-update chain at the head of the per-patient loop. -/

def updStatus (inst : PASUInstance) (st : BuildState) (p d : Nat) : BuildState :=
  let pat := inst.patientAt p
  if d = pat.aday then setSched st p 0 ADMITTED
  else if d = pat.rday then setSched st p 0 REGISTERED
  else if d = pat.valid_dday then setSched st p 0 DISCHARGED
  else st

/- One iteration of the patient loop of `arrange_patients`; the `Bool` is the
not-yet-failed flag (a C++ `return false` freezes the remaining iterations),
the final `Nat` is the position in the random stream (`rand()` is consumed
exactly when the placement condition holds). -/

def arrangeStep (inst : PASUInstance) (rng : Nat → Nat) (d : Nat)
    (acc : Bool × BuildState × Nat) (p : Nat) : Bool × BuildState × Nat :=
  match acc with
  | (false, st, k) => (false, st, k)
  | (true, st, k) =>
    let st1 := updStatus inst st p d
    let pat := inst.patientAt p
    if (st1.schedule p 0 = ADMITTED ∧ d = pat.aday) ∨
       (st1.schedule p 0 = REGISTERED ∧ pat.aday ≠ pat.rday) then
      match tryRooms inst st1 p (rng k % inst.num_rooms) with
      | some st2 => (true, st2, k + 1)
      | none => (false, st1, k + 1)
    else (true, st1, k)

def arrangePrefix (inst : PASUInstance) (rng : Nat → Nat) (d : Nat)
    (st : BuildState) (k q : Nat) : Bool × BuildState × Nat :=
  (List.range q).foldl (arrangeStep inst rng d) (true, st, k)

def arrange_patients (inst : PASUInstance) (rng : Nat → Nat) (d : Nat)
    (st : BuildState) (k : Nat) : Bool × BuildState × Nat :=
  arrangePrefix inst rng d st k inst.num_patients

/- The release loop in `generate_ini_solution`: after a successful day, every
patient with status REGISTERED and `aday != rday` gives back the beds its
(tentative) placement took, at `schedule[p][i+1]` for each span day with a
non-199 cell. -/

def undoStep (inst : PASUInstance) (st : BuildState) (p : Nat) : BuildState :=
  let pat := inst.patientAt p
  if st.schedule p 0 = REGISTERED ∧ pat.aday ≠ pat.rday then
    (spanList pat).foldl
      (fun st i =>
        if st.schedule p (i + 1) ≠ 199 then incTempo st (st.schedule p (i + 1)) i else st) st
  else st

def undoPrefix (inst : PASUInstance) (st : BuildState) (u : Nat) : BuildState :=
  (List.range u).foldl (undoStep inst) st

def undoRegistered (inst : PASUInstance) (st : BuildState) : BuildState :=
  undoPrefix inst st inst.num_patients

/- `update_tempo_room_capacity` / `update_room_capacity`: copy the in-range
grid cells (`r < num_rooms`, `d < num_days`) between the authoritative and
working ledgers. -/

def update_tempo_room_capacity (inst : PASUInstance) (st : BuildState) : BuildState :=
  { st with beds_tempo := fun r d =>
      if r < inst.num_rooms ∧ d < inst.num_days then st.beds r d else st.beds_tempo r d }

def update_room_capacity (inst : PASUInstance) (st : BuildState) : BuildState :=
  { st with beds := fun r d =>
      if r < inst.num_rooms ∧ d < inst.num_days then st.beds_tempo r d else st.beds r d }

/- `reset_schedule`: the `schedule.resize(num_patients, ...)` call is a no-op
on an already-sized vector (C++ `vector::resize` only fills NEW elements), so
only the status column is actually reset; the day cells keep whatever the
previous attempt wrote.  The embedding reproduces exactly that. -/

def reset_schedule (inst : PASUInstance) (st : BuildState) : BuildState :=
  { st with schedule := fun p i =>
      if p < inst.num_patients ∧ i = 0 then UNREGISTERED else st.schedule p i }

/- One day of `generate_ini_solution`: refresh the working ledger, run
`arrange_patients`; on success run the release loop and commit the working
ledger into the authoritative one, on failure keep the failure state. -/

def runDay (inst : PASUInstance) (rng : Nat → Nat) (da : Nat)
    (st : BuildState) (k : Nat) : Bool × BuildState × Nat :=
  let stA := update_tempo_room_capacity inst st
  match arrange_patients inst rng da stA k with
  | (true, st1, k1) => (true, update_room_capacity inst (undoRegistered inst st1), k1)
  | (false, st1, k1) => (false, st1, k1)

def dayStep (inst : PASUInstance) (rng : Nat → Nat)
    (acc : Bool × BuildState × Nat) (da : Nat) : Bool × BuildState × Nat :=
  match acc with
  | (false, st, k) => (false, st, k)
  | (true, st, k) => runDay inst rng da st k

def dayPrefix (inst : PASUInstance) (rng : Nat → Nat) (st : BuildState)
    (k m : Nat) : Bool × BuildState × Nat :=
  (List.range m).foldl (dayStep inst rng) (true, st, k)

def runAttempt (inst : PASUInstance) (rng : Nat → Nat) (st : BuildState)
    (k : Nat) : Bool × BuildState × Nat :=
  dayPrefix inst rng st k inst.num_days

/- The attempt loop (`for n = 0; n < 10000; n++`).  The success test in the
source is `if (da = num_days - 1 && t == 1)` — an ASSIGNMENT to `da`, whose
condition value is `(num_days - 1) != 0 && t == 1` in unsigned arithmetic
(`num_days - 1` wraps to a nonzero value when `num_days = 0`), i.e. it holds
iff `num_days ≠ 1 ∧ t`.  On break the function returns the attempt index n;
after a full loop it returns 10000. -/

def genLoop (inst : PASUInstance) (rng : Nat → Nat) :
    Nat → BuildState → Nat → Nat × BuildState × Nat
  | 0, st, k => (10000, st, k)
  | fuel + 1, st, k =>
    match runAttempt inst rng (reset_schedule inst st) k with
    | (t, st1, k1) =>
      if inst.num_days ≠ 1 ∧ t = true then (10000 - (fuel + 1), st1, k1)
      else genLoop inst rng fuel st1 k1

def generate_ini_solution (inst : PASUInstance) (rng : Nat → Nat)
    (st : BuildState) (k : Nat) : Nat × BuildState × Nat :=
  genLoop inst rng 10000 st k

/- The state `prep_data` leaves behind: schedule cells filled with 199,
`beds[r][d] = capacity(r)`, `beds_tempo` zero-filled (`NULL` is 0). -/

def initState (inst : PASUInstance) : BuildState :=
  { schedule := fun p i => if p < inst.num_patients ∧ i < inst.num_days + 1 then 199 else 0
  , beds := fun r d =>
      if r < inst.num_rooms ∧ d < inst.num_days then ((inst.roomAt r).capacity : Int) else 0
  , beds_tempo := fun _ _ => 0 }

/- The state at the start of attempt j+1, following the program: attempts run
back-to-back on the same globals (nothing restores `beds` between attempts). -/

def attemptsIter (inst : PASUInstance) (rng : Nat → Nat) : Nat → BuildState × Nat
  | 0 => (initState inst, 0)
  | j + 1 =>
    let s := attemptsIter inst rng j
    let r := runAttempt inst rng (reset_schedule inst s.1) s.2
    (r.2.1, r.2.2)

/- Observation points of the run, used to state the ledger-bounds claim at
every point of the construction: the state after m days of attempt j+1 (the
attempt working on top of `attemptsIter j`), the state in the middle of day
m's patient loop after q patients, and the state in the middle of day m's
release loop after u patients. -/

def dayStateAt (inst : PASUInstance) (rng : Nat → Nat) (j m : Nat) : Bool × BuildState × Nat :=
  dayPrefix inst rng (reset_schedule inst (attemptsIter inst rng j).1)
    (attemptsIter inst rng j).2 m

def arrangeStateAt (inst : PASUInstance) (rng : Nat → Nat) (j m q : Nat) :
    Bool × BuildState × Nat :=
  arrangePrefix inst rng m (update_tempo_room_capacity inst (dayStateAt inst rng j m).2.1)
    (dayStateAt inst rng j m).2.2 q

def undoStateAt (inst : PASUInstance) (rng : Nat → Nat) (j m u : Nat) : BuildState :=
  undoPrefix inst (arrangeStateAt inst rng j m inst.num_patients).2.1 u

/- `calculate_cost`: for each patient read the room at `schedule[p][aday+1]`
and add `total_patient_room_cost[p][that room]` (once — NOT multiplied by the
stay length) into the running total.  (The `assignments[p]` record updates
carry no further information used by the modelled code.) -/

def calculate_cost (inst : PASUInstance) (st : BuildState) : Nat :=
  (List.range inst.num_patients).foldl
    (fun acc p =>
      acc + total_patient_room_cost inst p (st.schedule p ((inst.patientAt p).aday + 1))) 0

/- `main`: prep, generate, (the no-op `search_neighborhood_s0`, which only
writes locals), print, cost; the return value of `generate_ini_solution` is
discarded and `main` returns 0 unconditionally — there is no failure path. -/

structure MainResult where
  gen_attempts : Nat
  final : BuildState
  total_cost : Nat
  exit_code : Nat

def pasu_main (inst : PASUInstance) (rng : Nat → Nat) : MainResult :=
  let g := generate_ini_solution inst rng (initState inst) 0
  { gen_attempts := g.1
  , final := g.2.1
  , total_cost := calculate_cost inst g.2.1
  , exit_code := 0 }

/- ### Invariant vocabulary used by the theorems -/

def capOf (inst : PASUInstance) (r : Nat) : Int := ((inst.roomAt r).capacity : Int)

/- The ledger bounds of the claim: every cell non-negative, and every real
cell (`r < num_rooms`, `d < num_days`) at most the room capacity, for both the
authoritative (`beds`) and the working (`beds_tempo`) grid. -/

def GoodState (inst : PASUInstance) (st : BuildState) : Prop :=
  (∀ r d, 0 ≤ st.beds r d) ∧ (∀ r d, 0 ≤ st.beds_tempo r d) ∧
  (∀ r d, r < inst.num_rooms → d < inst.num_days →
    st.beds r d ≤ capOf inst r ∧ st.beds_tempo r d ≤ capOf inst r)

/- One patient's hold on ledger cell (r, i), read off the schedule: 1 when i
is a span day whose cell records room r (and is not the 199 fill). -/

def coverCnt (inst : PASUInstance) (st : BuildState) (p r i : Nat) : Nat :=
  let pat := inst.patientAt p
  if pat.aday ≤ i ∧ i < pat.valid_dday ∧ st.schedule p (i + 1) = r ∧ r ≠ 199 then 1 else 0

/- The release condition of the loop in `generate_ini_solution`. -/

def regCond (inst : PASUInstance) (st : BuildState) (p : Nat) : Prop :=
  st.schedule p 0 = REGISTERED ∧ (inst.patientAt p).aday ≠ (inst.patientAt p).rday

instance (inst : PASUInstance) (st : BuildState) (p : Nat) : Decidable (regCond inst st p) := by
  unfold regCond; infer_instance

/- Total hold of a set of patients (given as an index list) on cell (r, i). -/

def regHold (inst : PASUInstance) (st : BuildState) (l : List Nat) (r i : Nat) : Nat :=
  (l.map (fun p => if regCond inst st p then coverCnt inst st p r i else 0)).sum

/- Working-ledger invariant carried through the patient loop on one day:
cells never negative, and (on real cells) current value plus the holds of the
release-eligible patients in l never exceeds the day-start authoritative
value `bedsDS`. -/

def ArrInv (inst : PASUInstance) (bedsDS : Nat → Nat → Int) (l : List Nat)
    (st : BuildState) : Prop :=
  ∀ r i, 0 ≤ st.beds_tempo r i ∧
    (r < inst.num_rooms → i < inst.num_days →
      st.beds_tempo r i + (regHold inst st l r i : Int) ≤ bedsDS r i)

/- Hard-constraint soundness of one admitted patient: a single room covering
the whole stay span, and that room is available for the patient. -/

def SpanOK (inst : PASUInstance) (st : BuildState) (p : Nat) : Prop :=
  ∃ r, patient_room_availability inst p r = true ∧
    ∀ i, (inst.patientAt p).aday ≤ i → i < (inst.patientAt p).valid_dday →
      st.schedule p (i + 1) = r

def AdmOK (inst : PASUInstance) (st : BuildState) : Prop :=
  ∀ p, p < inst.num_patients → st.schedule p 0 = ADMITTED → SpanOK inst st p

/- ### Concrete instances used as witnesses and failing inputs -/

def rng0 : Nat → Nat := fun _ => 0

/- A feasible instance: one room (capacity 1, dept 0, TOGETHER), one patient
staying days [0,2), preferring a feature the room lacks (cost 20). -/

def instFeas : PASUInstance :=
  { num_rooms := 1, num_features := 1, num_departments := 1, num_specialisms := 1
  , num_patients := 1, num_days := 2
  , rooms := [⟨1, 0, GenderPolicy.TOGETHER⟩]
  , patients := [⟨30, Gender.MALE, 0, 0, 2, 2, 0, 2, 1⟩]
  , room_property := [[false]]
  , dept_specialism_level := [[DoctoringLevel.COMPLETE]]
  , department_age_limits := [(0, 120)]
  , patient_property_level := [[Request.PREFERRED]]
  , patient_specialism_needed := [0] }

/- An instance whose first attempt commits day 0 and then fails on day 1:
one room of capacity 1, patient 0 stays [0,2), patient 1 stays [1,2). -/

def inst4 : PASUInstance :=
  { num_rooms := 1, num_features := 0, num_departments := 1, num_specialisms := 1
  , num_patients := 2, num_days := 2
  , rooms := [⟨1, 0, GenderPolicy.TOGETHER⟩]
  , patients := [⟨30, Gender.MALE, 0, 0, 2, 2, 0, 2, 1⟩, ⟨40, Gender.MALE, 1, 1, 2, 2, 0, 1, 1⟩]
  , room_property := [[]]
  , dept_specialism_level := [[DoctoringLevel.COMPLETE]]
  , department_age_limits := [(0, 120)]
  , patient_property_level := [[], []]
  , patient_specialism_needed := [0, 0] }

/- An infeasible instance: the single patient NEEDS feature 0, which the only
room lacks, so `patient_room_availability` is false everywhere and every
construction attempt fails on day 0. -/

def instC5 : PASUInstance :=
  { num_rooms := 1, num_features := 1, num_departments := 1, num_specialisms := 1
  , num_patients := 1, num_days := 2
  , rooms := [⟨1, 0, GenderPolicy.TOGETHER⟩]
  , patients := [⟨30, Gender.MALE, 0, 0, 2, 2, 0, 2, 1⟩]
  , room_property := [[false]]
  , dept_specialism_level := [[DoctoringLevel.COMPLETE]]
  , department_age_limits := [(0, 120)]
  , patient_property_level := [[Request.NEEDED]]
  , patient_specialism_needed := [0] }

/- A patient whose preferred capacity came from a `*` in the input: prep_data
assigns `pat->preferred_cap = MAX_CAPACITY` there, and MAX_CAPACITY is the
never-assigned global, i.e. 0.  The room has capacity 1 and no other penalty
applies. -/

def inst9 : PASUInstance :=
  { num_rooms := 1, num_features := 0, num_departments := 1, num_specialisms := 1
  , num_patients := 1, num_days := 2
  , rooms := [⟨1, 0, GenderPolicy.TOGETHER⟩]
  , patients := [⟨30, Gender.MALE, 0, 0, 2, 2, 0, 2, MAX_CAPACITY⟩]
  , room_property := [[]]
  , dept_specialism_level := [[DoctoringLevel.COMPLETE]]
  , department_age_limits := [(0, 120)]
  , patient_property_level := [[]]
  , patient_specialism_needed := [0] }

/- Two patients with stays [0,2) and [1,3): exactly one shared day. -/

def inst10 : PASUInstance :=
  { num_rooms := 1, num_features := 0, num_departments := 1, num_specialisms := 1
  , num_patients := 2, num_days := 3
  , rooms := [⟨2, 0, GenderPolicy.TOGETHER⟩]
  , patients := [⟨30, Gender.MALE, 0, 0, 2, 2, 0, 2, 1⟩, ⟨40, Gender.MALE, 1, 1, 3, 3, 0, 1, 1⟩]
  , room_property := [[]]
  , dept_specialism_level := [[DoctoringLevel.COMPLETE]]
  , department_age_limits := [(0, 120)]
  , patient_property_level := [[], []]
  , patient_specialism_needed := [0, 0] }

/- ### General fold lemmas -/

theorem foldl_if_false_eq {α : Type} (P : α → Prop) [DecidablePred P] (l : List α) :
    ∀ b : Bool, l.foldl (fun acc x => if P x then false else acc) b
      = (b && !(l.any fun x => decide (P x))) := by
  induction l with
  | nil => intro b; simp
  | cons a t ih =>
    intro b
    rw [List.foldl_cons, List.any_cons]
    by_cases h : P a
    · rw [if_pos h, ih]
      simp [h]
    · rw [if_neg h, ih]
      simp [h]

theorem foldl_if_add_eq {α : Type} (P : α → Prop) [DecidablePred P] (w : Nat) (l : List α) :
    ∀ c : Nat, l.foldl (fun acc x => if P x then acc + w else acc) c
      = c + w * l.countP (fun x => decide (P x)) := by
  induction l with
  | nil => intro c; simp
  | cons a t ih =>
    intro c
    by_cases h : P a <;> simp [h, ih, List.countP_cons] <;> try ring

/- ### C6: hard-constraint characterisation of availability -/

/-- C6: `available(p, r)` is false exactly when some NEEDED feature of p is
absent from r, or r's department's level for p's required specialism is NONE,
or p's age falls outside the department's age range (a bound of 0 meaning
unbounded); otherwise it is true. -/
theorem C6_availability_characterisation (inst : PASUInstance) (p r : Nat) :
    patient_room_availability inst p r = false ↔ available_violation inst p r := by
  unfold patient_room_availability available_violation
  rw [foldl_if_false_eq]
  by_cases h4 : (inst.ageLimits (inst.roomAt r).department).2 ≠ 0 ∧
      (inst.ageLimits (inst.roomAt r).department).2 < (inst.patientAt p).age
  · simp [h4]
  · by_cases h3 : (inst.ageLimits (inst.roomAt r).department).1 ≠ 0 ∧
        (inst.patientAt p).age < (inst.ageLimits (inst.roomAt r).department).1
    · simp [h3, h4]
    · by_cases h2 : inst.deptLevel (inst.roomAt r).department (inst.specNeeded p)
          = DoctoringLevel.NONE
      · simp [h2, h3, h4]
      · simp [h2, h3, h4, List.any_eq_true, List.mem_range]

/- ### C7: the cost formula, and gender as a soft constraint -/

theorem avail_ext (inst inst' : PASUInstance) (p r : Nat)
    (h1 : inst'.num_features = inst.num_features)
    (h2 : ∀ pr, inst'.plevel p pr = inst.plevel p pr)
    (h3 : ∀ pr, inst'.rprop r pr = inst.rprop r pr)
    (h4 : inst'.roomAt r = inst.roomAt r)
    (h5 : ∀ dep sp, inst'.deptLevel dep sp = inst.deptLevel dep sp)
    (h6 : ∀ dep, inst'.ageLimits dep = inst.ageLimits dep)
    (h7 : (inst'.patientAt p).age = (inst.patientAt p).age)
    (h8 : inst'.specNeeded p = inst.specNeeded p) :
    patient_room_availability inst' p r = patient_room_availability inst p r := by
  unfold patient_room_availability
  simp only [h1, h2, h3, h4, h5, h6, h7, h8]

theorem set_gender_age (l : List Patients) (g : Gender) :
    ∀ p : Nat, ((l.set p { l.getD p default with gender := g }).getD p default).age
      = (l.getD p default).age := by
  induction l with
  | nil => intro p; simp
  | cons a t ih =>
    intro p
    cases p with
    | zero => rfl
    | succ q => simpa using ih q

/-- C7: `cost(p, r)` equals PREFERRED_PROPERTY_WEIGHT per PREFERRED feature of
p absent from r, plus PREFERENCE_WEIGHT if p's preferred capacity is below r's
capacity, plus SPECIALISM_WEIGHT on a PARTIAL specialism level, plus
GENDER_WEIGHT on a MALE_ONLY/female or FEMALE_ONLY/male conflict; and a gender
conflict never affects `available(p, r)` (changing the patient's gender leaves
availability unchanged). -/
theorem C7_cost_formula_and_gender_soft (inst : PASUInstance) (p r : Nat) :
    (total_patient_room_cost inst p r =
        PREFERRED_PROPERTY_WEIGHT *
            (List.range inst.num_features).countP
              (fun pr => decide (inst.plevel p pr = Request.PREFERRED ∧ inst.rprop r pr = false))
          + (if (inst.patientAt p).preferred_cap < (inst.roomAt r).capacity
             then PREFERENCE_WEIGHT else 0)
          + (if inst.deptLevel (inst.roomAt r).department (inst.specNeeded p)
                = DoctoringLevel.PARTIAL then SPECIALISM_WEIGHT else 0)
          + (if (inst.roomAt r).policy = GenderPolicy.MALE_ONLY ∧
                (inst.patientAt p).gender = Gender.FEMALE then GENDER_WEIGHT else 0)
          + (if (inst.roomAt r).policy = GenderPolicy.FEMALE_ONLY ∧
                (inst.patientAt p).gender = Gender.MALE then GENDER_WEIGHT else 0))
      ∧ ∀ g : Gender,
          patient_room_availability (setPatientGender inst p g) p r
            = patient_room_availability inst p r := by
  constructor
  · simp only [total_patient_room_cost]
    rw [foldl_if_add_eq]
    split_ifs <;> ring
  · intro g
    refine avail_ext inst (setPatientGender inst p g) p r rfl (fun _ => rfl) (fun _ => rfl)
      rfl (fun _ _ => rfl) (fun _ => rfl) ?_ rfl
    exact set_gender_age inst.patients g p

/- ### C8: the instance lower bound -/

theorem foldl_if_filter_map {α β γ : Type} (Q : α → Bool) (f : α → β) (g : γ → β → γ)
    (l : List α) :
    ∀ init : γ, l.foldl (fun acc x => if Q x = true then g acc (f x) else acc) init
      = ((l.filter Q).map f).foldl g init := by
  induction l with
  | nil => intro init; rfl
  | cons a t ih =>
    intro init
    by_cases h : Q a = true
    · simp [h, List.filter_cons, ih]
    · simp [h, List.filter_cons, ih]

theorem foldl_min_eq_min? (l : List Nat) :
    ∀ m : Nat, l.foldl min m = l.min?.elim m (min m) := by
  induction l with
  | nil => intro m; rfl
  | cons a t ih =>
    intro m
    rw [List.foldl_cons, List.min?_cons, ih (min m a)]
    cases h : t.min? with
    | none => simp [h]
    | some b => simp [h, Nat.min_assoc]

theorem foldl_sentinel_from_nat (l : List Nat) :
    ∀ m : Nat,
      l.foldl (fun (acc : Int) (c : Nat) => if acc = -1 ∨ c < acc.toNat then (c : Int) else acc)
          ((m : Nat) : Int)
        = ((l.foldl min m : Nat) : Int) := by
  induction l with
  | nil => intro m; rfl
  | cons a t ih =>
    intro m
    rw [List.foldl_cons, List.foldl_cons]
    by_cases h : a < m
    · rw [if_pos (Or.inr (by simp [h]))]
      rw [ih a]
      have hmin : min m a = a := by omega
      rw [hmin]
    · rw [if_neg (by simp only [Int.toNat_natCast]; omega)]
      rw [ih m]
      have hmin : min m a = m := by omega
      rw [hmin]

theorem patient_min_cost_eq (inst : PASUInstance) (p : Nat) :
    patient_min_cost inst p =
      ((((List.range inst.num_rooms).filter (fun r => patient_room_availability inst p r)).map
          (fun r => total_patient_room_cost inst p r)).min?.elim (-1) (fun m => (m : Int))) := by
  unfold patient_min_cost
  rw [foldl_if_filter_map (fun r => patient_room_availability inst p r)
      (fun r => total_patient_room_cost inst p r)
      (fun acc c => if acc = -1 ∨ c < acc.toNat then (c : Int) else acc)]
  cases hl : ((List.range inst.num_rooms).filter
      (fun r => patient_room_availability inst p r)).map
      (fun r => total_patient_room_cost inst p r) with
  | nil => rfl
  | cons a t =>
    rw [List.foldl_cons, if_pos (Or.inl rfl), List.min?_cons]
    rw [foldl_sentinel_from_nat t a, foldl_min_eq_min? t a]
    rfl

theorem foldl_if_skip_add {α : Type} (P : α → Prop) [DecidablePred P] (f : α → Nat)
    (l : List α) :
    ∀ c : Nat, l.foldl (fun acc x => if P x then acc else acc + f x) c
      = c + (l.map (fun x => if P x then 0 else f x)).sum := by
  induction l with
  | nil => intro c; simp
  | cons a t ih =>
    intro c
    by_cases h : P a <;> simp [h, ih] <;> try ring

/-- C8: the instance lower bound equals the sum, over exactly those patients
with at least one available room, of (minimum cost over available rooms) times
the patient's stay length; patients with no available room are exactly the
ones reported infeasible and contribute nothing. -/
theorem C8_lower_bound_formula (inst : PASUInstance) :
    lower_bound inst = lower_bound_spec inst ∧
    infeasible_report inst = (List.range inst.num_patients).filter
      (fun p => decide (∀ r, r < inst.num_rooms → patient_room_availability inst p r = false)) := by
  have hnone : ∀ p, patient_min_cost inst p = -1 ↔
      (((List.range inst.num_rooms).filter (fun r => patient_room_availability inst p r)).map
        (fun r => total_patient_room_cost inst p r)).min? = none := by
    intro p
    rw [patient_min_cost_eq]
    cases h : (((List.range inst.num_rooms).filter
        (fun r => patient_room_availability inst p r)).map
        (fun r => total_patient_room_cost inst p r)).min? with
    | none => simp
    | some m =>
      simp only [Option.elim]
      constructor
      · intro h; omega
      · intro h; exact absurd h (by simp)
  constructor
  · unfold lower_bound lower_bound_spec
    rw [foldl_if_skip_add (fun p => patient_min_cost inst p = -1)
      (fun p => (patient_min_cost inst p).toNat * stayLength (inst.patientAt p))]
    rw [Nat.zero_add]
    have hfun : ∀ p, (if patient_min_cost inst p = -1 then 0
        else (patient_min_cost inst p).toNat * stayLength (inst.patientAt p))
        = (match (((List.range inst.num_rooms).filter
              (fun r => patient_room_availability inst p r)).map
              (fun r => total_patient_room_cost inst p r)).min? with
           | some m => m * stayLength (inst.patientAt p)
           | none => 0) := by
      intro p
      by_cases h : patient_min_cost inst p = -1
      · rw [if_pos h]
        rw [hnone] at h
        rw [h]
      · rw [if_neg h]
        have heq := patient_min_cost_eq inst p
        cases hm : (((List.range inst.num_rooms).filter
            (fun r => patient_room_availability inst p r)).map
            (fun r => total_patient_room_cost inst p r)).min? with
        | none => rw [(hnone p).mpr hm] at h; exact absurd rfl h
        | some m =>
          rw [hm] at heq
          simp only [Option.elim] at heq
          rw [heq]
          simp
    exact congrArg List.sum (List.map_congr_left (fun p _ => hfun p))
  · unfold infeasible_report
    apply List.filter_congr
    intro p hp
    have : (patient_min_cost inst p = -1) ↔
        (∀ r, r < inst.num_rooms → patient_room_availability inst p r = false) := by
      rw [hnone p]
      rw [List.min?_eq_none_iff, List.map_eq_nil_iff, List.filter_eq_nil_iff]
      constructor
      · intro h r hr
        have := h r (List.mem_range.mpr hr)
        simpa using this
      · intro h r hr
        have := h r (List.mem_range.mp hr)
        simp [this]
    simp [this]

/- ### C10: overlap matrix -/

theorem countP_range'_window (a2 d2 : Nat) :
    ∀ (n a1 : Nat), (List.range' a1 n).countP (fun d => decide (a2 ≤ d ∧ d < d2))
      = min (a1 + n) d2 - max a1 a2 := by
  intro n
  induction n with
  | zero =>
    intro a1
    rw [show List.range' a1 0 = [] from rfl, List.countP_nil]
    omega
  | succ k ih =>
    intro a1
    rw [List.range'_succ, List.countP_cons, ih (a1 + 1)]
    by_cases h : a2 ≤ a1 ∧ a1 < d2
    · rw [if_pos (by simp [h])]
      omega
    · rw [if_neg (by simp [h])]
      omega

theorem overlapCount_window (P Q : Patients) :
    overlapCount P Q = min P.dday Q.dday - max P.aday Q.aday := by
  unfold overlapCount
  rw [countP_range'_window]
  omega

theorem overlapCount_comm (P Q : Patients) : overlapCount P Q = overlapCount Q P := by
  rw [overlapCount_window, overlapCount_window]
  omega

theorem sharedStayDays_eq_overlapCount (P Q : Patients) :
    sharedStayDays P Q = overlapCount P Q := by
  unfold sharedStayDays
  rw [Finset.Ico_inter_Ico, Nat.card_Ico, overlapCount_window, sup_eq_max, inf_eq_min]

theorem obump_apply (m : Nat → Nat → Nat) (i j a b : Nat) :
    obump m i j a b = m a b + (if a = i ∧ b = j then 1 else 0) := by
  unfold obump
  by_cases h : a = i ∧ b = j <;> simp [h]

theorem overlapPair_apply (inst : PASUInstance) (p1 p2 : Nat) (hne : p1 ≠ p2)
    (m : Nat → Nat → Nat) (a b : Nat) :
    overlapPair inst m p1 p2 a b
      = m a b + (if (a = p1 ∧ b = p2) ∨ (a = p2 ∧ b = p1)
          then overlapCount (inst.patientAt p1) (inst.patientAt p2) else 0) := by
  unfold overlapPair overlapCount
  generalize (List.range' (inst.patientAt p1).aday
      ((inst.patientAt p1).dday - (inst.patientAt p1).aday)) = l
  induction l generalizing m with
  | nil => simp
  | cons d t ih =>
    rw [List.foldl_cons, List.countP_cons]
    by_cases hd : (inst.patientAt p2).aday ≤ d ∧ d < (inst.patientAt p2).dday
    · rw [if_pos hd, ih]
      have hb : (obump (obump m p1 p2) p2 p1) a b
          = m a b + (if (a = p1 ∧ b = p2) ∨ (a = p2 ∧ b = p1) then 1 else 0) := by
        rw [obump_apply, obump_apply]
        by_cases h1 : a = p1 ∧ b = p2
        · have h2 : ¬(a = p2 ∧ b = p1) := fun hc => hne (h1.1.symm.trans hc.1)
          rw [if_pos h1, if_neg h2, if_pos (Or.inl h1)]
        · by_cases h2 : a = p2 ∧ b = p1
          · rw [if_neg h1, if_pos h2, if_pos (Or.inr h2)]
          · rw [if_neg h1, if_neg h2, if_neg (by rintro (h | h); exacts [h1 h, h2 h])]
      rw [hb]
      by_cases hc : (a = p1 ∧ b = p2) ∨ (a = p2 ∧ b = p1)
      · rw [if_pos hc, if_pos hc, if_pos hc, if_pos (by simp [hd])]
        omega
      · rw [if_neg hc, if_neg hc, if_neg hc]
    · rw [if_neg hd, ih]
      by_cases hc : (a = p1 ∧ b = p2) ∨ (a = p2 ∧ b = p1)
      · rw [if_pos hc, if_pos hc, if_neg (by simp [hd])]
        omega
      · rw [if_neg hc, if_neg hc]

theorem overlap_inner_apply (inst : PASUInstance) (p1 a b : Nat) :
    ∀ (l : List Nat), (∀ x ∈ l, p1 < x) → ∀ m : Nat → Nat → Nat,
      ((l.foldl (fun m p2 => overlapPair inst m p1 p2) m) a b)
        = m a b + (l.map (fun p2 => if (a = p1 ∧ b = p2) ∨ (a = p2 ∧ b = p1)
            then overlapCount (inst.patientAt p1) (inst.patientAt p2) else 0)).sum := by
  intro l
  induction l with
  | nil => intro _ m; simp
  | cons c t ih =>
    intro hl m
    rw [List.foldl_cons, List.map_cons, List.sum_cons]
    rw [ih (fun x hx => hl x (List.mem_cons_of_mem c hx))]
    rw [overlapPair_apply inst p1 c (Nat.ne_of_lt (hl c (List.mem_cons_self c t))) m a b]
    omega

theorem overlap_outer_apply (inst : PASUInstance) (a b : Nat) :
    ∀ (L : List Nat) (m : Nat → Nat → Nat),
      ((L.foldl (fun m p1 => (List.range' (p1 + 1) (inst.num_patients - (p1 + 1))).foldl
          (fun m p2 => overlapPair inst m p1 p2) m) m) a b)
        = m a b + (L.map (fun p1 =>
            ((List.range' (p1 + 1) (inst.num_patients - (p1 + 1))).map
              (fun p2 => if (a = p1 ∧ b = p2) ∨ (a = p2 ∧ b = p1)
                then overlapCount (inst.patientAt p1) (inst.patientAt p2) else 0)).sum)).sum := by
  intro L
  induction L with
  | nil => intro m; simp
  | cons c t ih =>
    intro m
    rw [List.foldl_cons, List.map_cons, List.sum_cons, ih]
    rw [overlap_inner_apply inst c a b _
      (fun x hx => Nat.lt_of_succ_le (List.mem_range'_1.mp hx).1) m]
    simp only [Nat.succ_eq_add_one]
    omega

theorem sum_map_ite_range' (f : Nat → Nat) (t : Nat) :
    ∀ (k s : Nat), ((List.range' s k).map (fun x => if x = t then f x else 0)).sum
      = if s ≤ t ∧ t < s + k then f t else 0 := by
  intro k
  induction k with
  | zero => intro s; rw [if_neg (by omega)]; rfl
  | succ k ih =>
    intro s
    rw [List.range'_succ, List.map_cons, List.sum_cons, ih (s + 1)]
    by_cases hs : s = t
    · subst hs
      rw [if_pos rfl, if_neg (by omega), if_pos (by omega)]
      omega
    · rw [if_neg hs]
      by_cases ht : s + 1 ≤ t ∧ t < s + 1 + k
      · rw [if_pos ht, if_pos (by omega)]
        omega
      · rw [if_neg ht, if_neg (by omega)]

theorem sum_map_ite_range (f : Nat → Nat) (t : Nat) (k : Nat) :
    ((List.range k).map (fun x => if x = t then f x else 0)).sum
      = if t < k then f t else 0 := by
  rw [List.range_eq_range', sum_map_ite_range' f t k 0]
  by_cases h : t < k
  · rw [if_pos (by omega), if_pos h]
  · rw [if_neg (by omega), if_neg h]

theorem sum_map_add_split (F G : Nat → Nat) :
    ∀ l : List Nat, (l.map (fun x => F x + G x)).sum = (l.map F).sum + (l.map G).sum := by
  intro l
  induction l with
  | nil => rfl
  | cons c t ih => simp [ih]; omega

/-- C10: the patient-overlap matrix is symmetric with zero diagonal: for
distinct patients p1 and p2 the two cells both equal the number of days in
both stay intervals `[aday, dday)`, and every diagonal cell is zero. -/
theorem C10_overlap_symmetric (inst : PASUInstance) (p1 p2 : Nat)
    (h1 : p1 < inst.num_patients) (h2 : p2 < inst.num_patients) :
    (p1 ≠ p2 →
      compute_overlap inst p1 p2 = sharedStayDays (inst.patientAt p1) (inst.patientAt p2)
      ∧ compute_overlap inst p2 p1 = sharedStayDays (inst.patientAt p1) (inst.patientAt p2))
    ∧ compute_overlap inst p1 p1 = 0 := by
  have key : ∀ a b, a ≠ b → a < inst.num_patients → b < inst.num_patients →
      compute_overlap inst a b
        = overlapCount (inst.patientAt (min a b)) (inst.patientAt (max a b)) := by
    intro a b hab ha hb
    unfold compute_overlap
    rw [overlap_outer_apply]
    have hterm : ∀ q, (fun p1 =>
        ((List.range' (p1 + 1) (inst.num_patients - (p1 + 1))).map
          (fun p2 => if (a = p1 ∧ b = p2) ∨ (a = p2 ∧ b = p1)
            then overlapCount (inst.patientAt p1) (inst.patientAt p2) else 0)).sum) q
        = (if q = min a b
            then overlapCount (inst.patientAt (min a b)) (inst.patientAt (max a b)) else 0) := by
      intro q
      show ((List.range' (q + 1) (inst.num_patients - (q + 1))).map
          (fun p2 => if (a = q ∧ b = p2) ∨ (a = p2 ∧ b = q)
            then overlapCount (inst.patientAt q) (inst.patientAt p2) else 0)).sum = _
      rcases Nat.lt_or_ge a b with hO | hO
      · -- a < b : only the pair (a, b) contributes
        have hmin : min a b = a := by omega
        have hmax : max a b = b := by omega
        rw [hmin, hmax]
        by_cases hq : q = a
        · rw [if_pos hq]
          have hmapeq : ∀ p2 ∈ List.range' (q + 1) (inst.num_patients - (q + 1)),
              (if (a = q ∧ b = p2) ∨ (a = p2 ∧ b = q)
                then overlapCount (inst.patientAt q) (inst.patientAt p2) else 0)
              = (if p2 = b then (fun x => overlapCount (inst.patientAt q) (inst.patientAt x)) p2
                 else 0) := by
            intro p2 hp2
            have hgt : q < p2 := Nat.lt_of_succ_le (List.mem_range'_1.mp hp2).1
            by_cases hb2 : p2 = b
            · rw [if_pos hb2, if_pos (Or.inl ⟨hq.symm, hb2.symm⟩)]
            · rw [if_neg hb2, if_neg ?_]
              rintro (⟨_, hbb⟩ | ⟨haa, hbb⟩)
              · exact hb2 hbb.symm
              · omega
          rw [List.map_congr_left hmapeq, sum_map_ite_range']
          rw [if_pos (by omega), hq]
        · rw [if_neg hq]
          have hmapz : ∀ p2 ∈ List.range' (q + 1) (inst.num_patients - (q + 1)),
              (if (a = q ∧ b = p2) ∨ (a = p2 ∧ b = q)
                then overlapCount (inst.patientAt q) (inst.patientAt p2) else 0) = 0 := by
            intro p2 hp2
            have hgt : q < p2 := Nat.lt_of_succ_le (List.mem_range'_1.mp hp2).1
            rw [if_neg ?_]
            rintro (⟨haa, _⟩ | ⟨haa, hbb⟩)
            · exact hq haa.symm
            · omega
          rw [List.map_congr_left hmapz]
          simp
      · -- b < a : only the pair (b, a) contributes
        have hO' : b < a := by omega
        have hmin : min a b = b := by omega
        have hmax : max a b = a := by omega
        rw [hmin, hmax]
        by_cases hq : q = b
        · rw [if_pos hq]
          have hmapeq : ∀ p2 ∈ List.range' (q + 1) (inst.num_patients - (q + 1)),
              (if (a = q ∧ b = p2) ∨ (a = p2 ∧ b = q)
                then overlapCount (inst.patientAt q) (inst.patientAt p2) else 0)
              = (if p2 = a then (fun x => overlapCount (inst.patientAt q) (inst.patientAt x)) p2
                 else 0) := by
            intro p2 hp2
            have hgt : q < p2 := Nat.lt_of_succ_le (List.mem_range'_1.mp hp2).1
            by_cases ha2 : p2 = a
            · rw [if_pos ha2, if_pos (Or.inr ⟨ha2.symm, hq.symm⟩)]
            · rw [if_neg ha2, if_neg ?_]
              rintro (⟨haa, hbb⟩ | ⟨haa, _⟩)
              · omega
              · exact ha2 haa.symm
          rw [List.map_congr_left hmapeq, sum_map_ite_range']
          rw [if_pos (by omega), hq]
        · rw [if_neg hq]
          have hmapz : ∀ p2 ∈ List.range' (q + 1) (inst.num_patients - (q + 1)),
              (if (a = q ∧ b = p2) ∨ (a = p2 ∧ b = q)
                then overlapCount (inst.patientAt q) (inst.patientAt p2) else 0) = 0 := by
            intro p2 hp2
            have hgt : q < p2 := Nat.lt_of_succ_le (List.mem_range'_1.mp hp2).1
            rw [if_neg ?_]
            rintro (⟨haa, hbb⟩ | ⟨_, hbb⟩)
            · omega
            · exact hq hbb.symm
          rw [List.map_congr_left hmapz]
          simp
    rw [List.map_congr_left (fun q _ => hterm q), sum_map_ite_range]
    rw [if_pos (by omega)]
    simp
  constructor
  · intro hne
    constructor
    · rcases Nat.lt_or_ge p1 p2 with h | h
      · rw [key p1 p2 hne h1 h2]
        rw [sharedStayDays_eq_overlapCount]
        have hmin : min p1 p2 = p1 := by omega
        have hmax : max p1 p2 = p2 := by omega
        rw [hmin, hmax]
      · have h' : p2 < p1 := by omega
        rw [key p1 p2 hne h1 h2]
        rw [sharedStayDays_eq_overlapCount]
        have hmin : min p1 p2 = p2 := by omega
        have hmax : max p1 p2 = p1 := by omega
        rw [hmin, hmax, overlapCount_comm]
    · rcases Nat.lt_or_ge p1 p2 with h | h
      · rw [key p2 p1 (Ne.symm hne) h2 h1]
        rw [sharedStayDays_eq_overlapCount]
        have hmin : min p2 p1 = p1 := by omega
        have hmax : max p2 p1 = p2 := by omega
        rw [hmin, hmax]
      · have h' : p2 < p1 := by omega
        rw [key p2 p1 (Ne.symm hne) h2 h1]
        rw [sharedStayDays_eq_overlapCount]
        have hmin : min p2 p1 = p2 := by omega
        have hmax : max p2 p1 = p1 := by omega
        rw [hmin, hmax, overlapCount_comm]
  · unfold compute_overlap
    rw [overlap_outer_apply]
    have houter : (List.map (fun q =>
        ((List.range' (q + 1) (inst.num_patients - (q + 1))).map
          (fun p2 => if (p1 = q ∧ p1 = p2) ∨ (p1 = p2 ∧ p1 = q)
            then overlapCount (inst.patientAt q) (inst.patientAt p2) else 0)).sum)
        (List.range (inst.num_patients - 1))).sum = 0 := by
      apply List.sum_eq_zero
      intro x hx
      obtain ⟨q, _, rfl⟩ := List.mem_map.mp hx
      apply List.sum_eq_zero
      intro y hy
      obtain ⟨p2, hp2, rfl⟩ := List.mem_map.mp hy
      have hgt : q < p2 := Nat.lt_of_succ_le (List.mem_range'_1.mp hp2).1
      rw [if_neg ?_]
      rintro (⟨hq, hp⟩ | ⟨hp, hq⟩) <;> omega
    rw [houter]

/- ### Cell-level effect lemmas for the construction model -/

theorem setSched_sched (st : BuildState) (p i v a b : Nat) :
    (setSched st p i v).schedule a b = if a = p ∧ b = i then v else st.schedule a b := rfl

theorem setSched_tempo (st : BuildState) (p i v : Nat) :
    (setSched st p i v).beds_tempo = st.beds_tempo := rfl

theorem setSched_beds (st : BuildState) (p i v : Nat) :
    (setSched st p i v).beds = st.beds := rfl

theorem decTempo_tempo (st : BuildState) (r d a b : Nat) :
    (decTempo st r d).beds_tempo a b
      = if a = r ∧ b = d then st.beds_tempo a b - 1 else st.beds_tempo a b := rfl

theorem decTempo_sched (st : BuildState) (r d : Nat) :
    (decTempo st r d).schedule = st.schedule := rfl

theorem decTempo_beds (st : BuildState) (r d : Nat) :
    (decTempo st r d).beds = st.beds := rfl

theorem incTempo_tempo (st : BuildState) (r d a b : Nat) :
    (incTempo st r d).beds_tempo a b
      = if a = r ∧ b = d then st.beds_tempo a b + 1 else st.beds_tempo a b := rfl

theorem incTempo_sched (st : BuildState) (r d : Nat) :
    (incTempo st r d).schedule = st.schedule := rfl

theorem incTempo_beds (st : BuildState) (r d : Nat) :
    (incTempo st r d).beds = st.beds := rfl

theorem count_range' (i : Nat) :
    ∀ (n s : Nat), (List.range' s n).count i = if s ≤ i ∧ i < s + n then 1 else 0 := by
  intro n
  induction n with
  | zero =>
    intro s
    rw [show List.range' s 0 = [] from rfl]
    rw [if_neg (by omega)]
    rfl
  | succ k ih =>
    intro s
    rw [List.range'_succ, List.count_cons, ih (s + 1)]
    simp only [beq_iff_eq]
    split_ifs <;> omega

theorem mem_spanList {pat : Patients} {i : Nat} :
    i ∈ spanList pat ↔ pat.aday ≤ i ∧ i < pat.valid_dday ∧ pat.aday ≤ pat.valid_dday := by
  unfold spanList
  rw [List.mem_range'_1]
  omega

theorem place_fold_tempo (p ran : Nat) :
    ∀ (l : List Nat) (st : BuildState) (a b : Nat),
      ((l.foldl (fun st i => decTempo (setSched st p (i + 1) ran) ran i) st).beds_tempo a b)
        = st.beds_tempo a b - (if a = ran then (l.count b : Int) else 0) := by
  intro l
  induction l with
  | nil =>
    intro st a b
    simp [List.count_nil]
  | cons j t ih =>
    intro st a b
    rw [List.foldl_cons, ih, List.count_cons]
    rw [decTempo_tempo, setSched_tempo]
    simp only [beq_iff_eq]
    by_cases ha : a = ran
    · by_cases hb : b = j
      · rw [if_pos ⟨ha, hb⟩, if_pos ha, if_pos ha, if_pos hb.symm]
        push_cast
        omega
      · rw [if_neg (fun hc => hb hc.2), if_pos ha, if_pos ha, if_neg (fun hc => hb hc.symm)]
        push_cast
        omega
    · rw [if_neg (fun hc => ha hc.1), if_neg ha, if_neg ha]

theorem place_fold_sched (p ran : Nat) :
    ∀ (l : List Nat) (st : BuildState) (a b : Nat),
      ((l.foldl (fun st i => decTempo (setSched st p (i + 1) ran) ran i) st).schedule a b)
        = if a = p ∧ (∃ j ∈ l, b = j + 1) then ran else st.schedule a b := by
  intro l
  induction l with
  | nil =>
    intro st a b
    rw [if_neg (by rintro ⟨_, j, hj, _⟩; exact (List.not_mem_nil j) hj)]
    rfl
  | cons j t ih =>
    intro st a b
    rw [List.foldl_cons, ih]
    by_cases h1 : a = p ∧ ∃ j' ∈ t, b = j' + 1
    · obtain ⟨hp1, j', hj', hb⟩ := h1
      rw [if_pos ⟨hp1, j', hj', hb⟩, if_pos ⟨hp1, j', List.mem_cons_of_mem j hj', hb⟩]
    · rw [if_neg h1, decTempo_sched, setSched_sched]
      by_cases h2 : a = p ∧ b = j + 1
      · rw [if_pos h2, if_pos ⟨h2.1, j, List.mem_cons_self j t, h2.2⟩]
      · rw [if_neg h2, if_neg ?_]
        rintro ⟨hp, j', hj', hb⟩
        rcases List.mem_cons.mp hj' with rfl | hj'
        · exact h2 ⟨hp, hb⟩
        · exact h1 ⟨hp, j', hj', hb⟩

theorem placeRoom_tempo (inst : PASUInstance) (st : BuildState) (p ran a b : Nat) :
    (placeRoom inst st p ran).beds_tempo a b
      = st.beds_tempo a b
        - (if a = ran ∧ (inst.patientAt p).aday ≤ b ∧ b < (inst.patientAt p).valid_dday
           then 1 else 0) := by
  unfold placeRoom
  rw [place_fold_tempo]
  unfold spanList
  rw [count_range']
  by_cases ha : a = ran
  · rw [if_pos ha]
    by_cases hb : (inst.patientAt p).aday ≤ b ∧
        b < (inst.patientAt p).aday +
          ((inst.patientAt p).valid_dday - (inst.patientAt p).aday)
    · rw [if_pos hb, if_pos (by exact ⟨ha, by omega⟩)]
      omega
    · rw [if_neg hb, if_neg (by rintro ⟨_, h1, h2⟩; exact hb (by omega))]
      omega
  · rw [if_neg ha, if_neg (fun hc => ha hc.1)]

theorem placeRoom_sched (inst : PASUInstance) (st : BuildState) (p ran a b : Nat) :
    (placeRoom inst st p ran).schedule a b
      = if a = p ∧ (inst.patientAt p).aday + 1 ≤ b ∧ b < (inst.patientAt p).valid_dday + 1
        then ran else st.schedule a b := by
  unfold placeRoom
  rw [place_fold_sched]
  by_cases h1 : a = p ∧ (inst.patientAt p).aday + 1 ≤ b ∧ b < (inst.patientAt p).valid_dday + 1
  · have hmem : b - 1 ∈ spanList (inst.patientAt p) := by
      unfold spanList
      rw [List.mem_range'_1]
      omega
    rw [if_pos ⟨h1.1, b - 1, hmem, by omega⟩, if_pos h1]
  · rw [if_neg h1, if_neg ?_]
    rintro ⟨hp, j, hj, hb⟩
    unfold spanList at hj
    rw [List.mem_range'_1] at hj
    exact h1 ⟨hp, by omega⟩

theorem placeRoom_beds (inst : PASUInstance) (st : BuildState) (p ran : Nat) :
    (placeRoom inst st p ran).beds = st.beds := by
  unfold placeRoom
  generalize spanList (inst.patientAt p) = l
  induction l generalizing st with
  | nil => rfl
  | cons j t ih => rw [List.foldl_cons]; exact ih _

theorem roomFits_spec (inst : PASUInstance) (st : BuildState) (p ran : Nat)
    (h : roomFits inst st p ran = true) :
    (inst.patientAt p).aday ≤ (inst.patientAt p).valid_dday
    ∧ (∀ i, (inst.patientAt p).aday ≤ i → i < (inst.patientAt p).valid_dday →
        1 ≤ st.beds_tempo ran i)
    ∧ patient_room_availability inst p ran = true := by
  unfold roomFits at h
  simp only [Bool.and_eq_true, List.all_eq_true, decide_eq_true_eq] at h
  obtain ⟨⟨h1, h2⟩, h3⟩ := h
  refine ⟨h1, ?_, h3⟩
  intro i hi1 hi2
  exact h2 i (mem_spanList.mpr ⟨hi1, hi2, h1⟩)

theorem tryRoomsDesc_some (inst : PASUInstance) (st : BuildState) (p : Nat) :
    ∀ (a : Nat) (st' : BuildState), tryRoomsDesc inst st p a = some st' →
      ∃ rm, roomFits inst st p rm = true ∧ st' = placeRoom inst st p rm := by
  intro a
  induction a with
  | zero =>
    intro st' h
    exact absurd h (by simp [tryRoomsDesc])
  | succ k ih =>
    intro st' h
    unfold tryRoomsDesc at h
    by_cases hf : roomFits inst st p k = true
    · rw [if_pos hf] at h
      exact ⟨k, hf, (Option.some.inj h).symm⟩
    · rw [if_neg hf] at h
      exact ih st' h

theorem tryRooms_some (inst : PASUInstance) (st : BuildState) (p ran0 : Nat)
    (st' : BuildState) (h : tryRooms inst st p ran0 = some st') :
    ∃ rm, roomFits inst st p rm = true ∧ st' = placeRoom inst st p rm := by
  unfold tryRooms at h
  by_cases hf : roomFits inst st p ran0 = true
  · rw [if_pos hf] at h
    exact ⟨ran0, hf, (Option.some.inj h).symm⟩
  · rw [if_neg hf] at h
    exact tryRoomsDesc_some inst st p inst.num_rooms st' h

theorem updStatus_sched_other (inst : PASUInstance) (st : BuildState) (p d a b : Nat)
    (hne : ¬(a = p ∧ b = 0)) :
    (updStatus inst st p d).schedule a b = st.schedule a b := by
  simp only [updStatus, setSched]
  split_ifs <;> simp [hne]

theorem updStatus_tempo (inst : PASUInstance) (st : BuildState) (p d : Nat) :
    (updStatus inst st p d).beds_tempo = st.beds_tempo := by
  simp only [updStatus, setSched]
  split_ifs <;> rfl

theorem updStatus_beds (inst : PASUInstance) (st : BuildState) (p d : Nat) :
    (updStatus inst st p d).beds = st.beds := by
  simp only [updStatus, setSched]
  split_ifs <;> rfl

theorem undo_fold_sched (p : Nat) :
    ∀ (l : List Nat) (st : BuildState),
      ((l.foldl (fun st i =>
          if st.schedule p (i + 1) ≠ 199 then incTempo st (st.schedule p (i + 1)) i else st)
        st).schedule) = st.schedule := by
  intro l
  induction l with
  | nil => intro st; rfl
  | cons j t ih =>
    intro st
    rw [List.foldl_cons, ih]
    by_cases h : st.schedule p (j + 1) ≠ 199
    · rw [if_pos h, incTempo_sched]
    · rw [if_neg h]

theorem undo_fold_beds (p : Nat) :
    ∀ (l : List Nat) (st : BuildState),
      ((l.foldl (fun st i =>
          if st.schedule p (i + 1) ≠ 199 then incTempo st (st.schedule p (i + 1)) i else st)
        st).beds) = st.beds := by
  intro l
  induction l with
  | nil => intro st; rfl
  | cons j t ih =>
    intro st
    rw [List.foldl_cons, ih]
    by_cases h : st.schedule p (j + 1) ≠ 199
    · rw [if_pos h, incTempo_beds]
    · rw [if_neg h]

theorem undo_fold_tempo (p : Nat) :
    ∀ (l : List Nat) (st : BuildState) (a b : Nat),
      ((l.foldl (fun st i =>
          if st.schedule p (i + 1) ≠ 199 then incTempo st (st.schedule p (i + 1)) i else st)
        st).beds_tempo a b)
        = st.beds_tempo a b
          + (if st.schedule p (b + 1) = a ∧ a ≠ 199 then (l.count b : Int) else 0) := by
  intro l
  induction l with
  | nil =>
    intro st a b
    simp [List.count_nil]
  | cons j t ih =>
    intro st a b
    rw [List.foldl_cons, List.count_cons]
    simp only [beq_iff_eq]
    by_cases h : st.schedule p (j + 1) ≠ 199
    · rw [if_pos h, ih, incTempo_sched, incTempo_tempo]
      by_cases hc : st.schedule p (b + 1) = a ∧ a ≠ 199
      · by_cases hb : j = b
        · have hav : a = st.schedule p (j + 1) ∧ b = j := by
            constructor
            · rw [hb]
              exact hc.1.symm
            · exact hb.symm
          rw [if_pos hav, if_pos hc, if_pos hc, if_pos hb]
          push_cast
          omega
        · have hav : ¬(a = st.schedule p (j + 1) ∧ b = j) := by
            rintro ⟨_, hbj⟩
            exact hb hbj.symm
          rw [if_neg hav, if_pos hc, if_pos hc, if_neg hb]
          push_cast
          omega
      · have hav : ¬(a = st.schedule p (j + 1) ∧ b = j) := by
          rintro ⟨hav1, hbj⟩
          apply hc
          constructor
          · rw [hbj]
            exact hav1.symm
          · rw [hav1]
            exact h
        rw [if_neg hav, if_neg hc, if_neg hc]
    · rw [if_neg h, ih]
      push_neg at h
      by_cases hc : st.schedule p (b + 1) = a ∧ a ≠ 199
      · have hjb : ¬(j = b) := by
          intro hjb
          apply hc.2
          rw [← hc.1, ← hjb, h]
        rw [if_pos hc, if_pos hc, if_neg hjb]
        push_cast
        omega
      · rw [if_neg hc, if_neg hc]

/- ### Hold-accounting lemmas -/

theorem regHold_append (inst : PASUInstance) (st : BuildState) (l1 l2 : List Nat) (r i : Nat) :
    regHold inst st (l1 ++ l2) r i = regHold inst st l1 r i + regHold inst st l2 r i := by
  unfold regHold
  rw [List.map_append, List.sum_append]

theorem regHold_single (inst : PASUInstance) (st : BuildState) (p r i : Nat) :
    regHold inst st [p] r i = if regCond inst st p then coverCnt inst st p r i else 0 := by
  unfold regHold
  simp

theorem regHold_cons (inst : PASUInstance) (st : BuildState) (p : Nat) (l : List Nat) (r i : Nat) :
    regHold inst st (p :: l) r i
      = (if regCond inst st p then coverCnt inst st p r i else 0) + regHold inst st l r i := by
  unfold regHold
  rw [List.map_cons, List.sum_cons]

theorem regHold_congr (inst : PASUInstance) (st st' : BuildState) (l : List Nat)
    (h : ∀ p ∈ l, ∀ i, st'.schedule p i = st.schedule p i) (r i : Nat) :
    regHold inst st' l r i = regHold inst st l r i := by
  unfold regHold
  apply congrArg List.sum
  apply List.map_congr_left
  intro p hp
  have hcond : regCond inst st' p ↔ regCond inst st p := by
    unfold regCond
    rw [h p hp 0]
  have hcov : coverCnt inst st' p r i = coverCnt inst st p r i := by
    unfold coverCnt
    rw [h p hp (i + 1)]
  by_cases hc : regCond inst st p
  · rw [if_pos (hcond.mpr hc), if_pos hc, hcov]
  · rw [if_neg (fun hx => hc (hcond.mp hx)), if_neg hc]

theorem cover_place (inst : PASUInstance) (st1 : BuildState) (q rm a b : Nat) :
    coverCnt inst (placeRoom inst st1 q rm) q a b
      ≤ (if a = rm ∧ (inst.patientAt q).aday ≤ b ∧ b < (inst.patientAt q).valid_dday
         then 1 else 0) := by
  unfold coverCnt
  by_cases h : (inst.patientAt q).aday ≤ b ∧ b < (inst.patientAt q).valid_dday ∧
      (placeRoom inst st1 q rm).schedule q (b + 1) = a ∧ a ≠ 199
  · rw [if_pos h]
    have hsch := h.2.2.1
    rw [placeRoom_sched] at hsch
    rw [if_pos ⟨rfl, by omega⟩] at hsch
    rw [if_pos ⟨hsch.symm, h.1, h.2.1⟩]
  · rw [if_neg h]
    split_ifs <;> omega

/- ### The per-day invariant of `arrange_patients` -/

theorem arrangePrefix_succ (inst : PASUInstance) (rng : Nat → Nat) (d : Nat)
    (st : BuildState) (k q : Nat) :
    arrangePrefix inst rng d st k (q + 1)
      = arrangeStep inst rng d (arrangePrefix inst rng d st k q) q := by
  unfold arrangePrefix
  rw [List.range_succ, List.foldl_append, List.foldl_cons, List.foldl_nil]

theorem arrangeStep_false (inst : PASUInstance) (rng : Nat → Nat) (d : Nat)
    (st : BuildState) (k p : Nat) :
    arrangeStep inst rng d (false, st, k) p = (false, st, k) := rfl

theorem arrangePrefix_inv (inst : PASUInstance) (rng : Nat → Nat) (d : Nat)
    (st0 : BuildState) (k0 : Nat) (h00 : ∀ r i, 0 ≤ st0.beds_tempo r i) :
    ∀ q : Nat,
      ((arrangePrefix inst rng d st0 k0 q).2.1.beds = st0.beds)
      ∧ (∀ r i, 0 ≤ (arrangePrefix inst rng d st0 k0 q).2.1.beds_tempo r i)
      ∧ (∀ r i, (arrangePrefix inst rng d st0 k0 q).2.1.beds_tempo r i ≤ st0.beds_tempo r i)
      ∧ ((arrangePrefix inst rng d st0 k0 q).1 = true →
          ∀ r i, (arrangePrefix inst rng d st0 k0 q).2.1.beds_tempo r i
              + (regHold inst (arrangePrefix inst rng d st0 k0 q).2.1 (List.range q) r i : Int)
            ≤ st0.beds_tempo r i) := by
  intro q
  induction q with
  | zero =>
    refine ⟨rfl, h00, fun r i => le_refl _, fun _ r i => ?_⟩
    simp [regHold, arrangePrefix]
  | succ q ih =>
    rw [arrangePrefix_succ]
    rcases hacc : arrangePrefix inst rng d st0 k0 q with ⟨t, stq, kq⟩
    rw [hacc] at ih
    dsimp only at ih
    obtain ⟨ihbeds, ihnn, ihle, ihhold⟩ := ih
    cases t with
    | false =>
      rw [arrangeStep_false]
      exact ⟨ihbeds, ihnn, ihle, fun hflag => absurd hflag (by simp)⟩
    | true =>
      simp only [arrangeStep]
      by_cases hC : ((updStatus inst stq q d).schedule q 0 = ADMITTED ∧ d = (inst.patientAt q).aday)
          ∨ ((updStatus inst stq q d).schedule q 0 = REGISTERED ∧
              (inst.patientAt q).aday ≠ (inst.patientAt q).rday)
      · rw [if_pos hC]
        rcases htr : tryRooms inst (updStatus inst stq q d) q (rng kq % inst.num_rooms) with _ | st2
        · refine ⟨?_, ?_, ?_, fun hflag => absurd hflag (by simp)⟩
          · rw [updStatus_beds]
            exact ihbeds
          · intro r i
            rw [updStatus_tempo]
            exact ihnn r i
          · intro r i
            rw [updStatus_tempo]
            exact ihle r i
        · obtain ⟨rm, hfits, hst2⟩ := tryRooms_some inst _ q _ st2 htr
          subst hst2
          obtain ⟨hspan, hfree, _⟩ := roomFits_spec inst _ q rm hfits
          have hrow : ∀ p' ∈ List.range q, ∀ i',
              (placeRoom inst (updStatus inst stq q d) q rm).schedule p' i'
                = stq.schedule p' i' := by
            intro p' hp' i'
            have hlt : p' < q := List.mem_range.mp hp'
            rw [placeRoom_sched, if_neg (fun hc => absurd hc.1 (by omega))]
            exact updStatus_sched_other inst stq q d p' i' (fun hc => absurd hc.1 (by omega))
          refine ⟨?_, ?_, ?_, ?_⟩
          · rw [placeRoom_beds, updStatus_beds]
            exact ihbeds
          · intro r i
            rw [placeRoom_tempo]
            by_cases hcell : r = rm ∧ (inst.patientAt q).aday ≤ i ∧
                i < (inst.patientAt q).valid_dday
            · rw [if_pos hcell]
              have h1 := hfree i hcell.2.1 hcell.2.2
              rw [updStatus_tempo] at h1
              rw [updStatus_tempo]
              rw [hcell.1]
              omega
            · rw [if_neg hcell, updStatus_tempo]
              have := ihnn r i
              omega
          · intro r i
            rw [placeRoom_tempo, updStatus_tempo]
            have := ihle r i
            split_ifs <;> omega
          · intro _ r i
            rw [List.range_succ, regHold_append, regHold_single]
            rw [regHold_congr inst stq _ (List.range q) hrow]
            rw [placeRoom_tempo, updStatus_tempo]
            have hhold := ihhold rfl r i
            have hcov : (if regCond inst (placeRoom inst (updStatus inst stq q d) q rm) q
                  then coverCnt inst (placeRoom inst (updStatus inst stq q d) q rm) q r i
                  else 0)
                ≤ (if r = rm ∧ (inst.patientAt q).aday ≤ i ∧
                    i < (inst.patientAt q).valid_dday then 1 else 0) := by
              by_cases hrc : regCond inst (placeRoom inst (updStatus inst stq q d) q rm) q
              · rw [if_pos hrc]
                exact cover_place inst (updStatus inst stq q d) q rm r i
              · rw [if_neg hrc]
                split_ifs <;> omega
            push_cast
            push_cast at hcov hhold
            split_ifs at hcov ⊢ <;> omega
      · rw [if_neg hC]
        have hrow : ∀ p' ∈ List.range q, ∀ i',
            (updStatus inst stq q d).schedule p' i' = stq.schedule p' i' := by
          intro p' hp' i'
          have hlt : p' < q := List.mem_range.mp hp'
          exact updStatus_sched_other inst stq q d p' i' (fun hc => absurd hc.1 (by omega))
        refine ⟨?_, ?_, ?_, ?_⟩
        · rw [updStatus_beds]
          exact ihbeds
        · intro r i
          rw [updStatus_tempo]
          exact ihnn r i
        · intro r i
          rw [updStatus_tempo]
          exact ihle r i
        · intro _ r i
          rw [List.range_succ, regHold_append, regHold_single]
          rw [regHold_congr inst stq _ (List.range q) hrow]
          rw [updStatus_tempo]
          have hreg : ¬regCond inst (updStatus inst stq q d) q := by
            intro hrc
            exact hC (Or.inr ⟨hrc.1, hrc.2⟩)
          rw [if_neg hreg]
          have hhold := ihhold rfl r i
          push_cast
          push_cast at hhold
          omega

/- ### The release loop -/

theorem undoStep_sched (inst : PASUInstance) (st : BuildState) (p : Nat) :
    (undoStep inst st p).schedule = st.schedule := by
  simp only [undoStep]
  split_ifs with h
  · exact undo_fold_sched p (spanList (inst.patientAt p)) st
  · rfl

theorem undoStep_beds (inst : PASUInstance) (st : BuildState) (p : Nat) :
    (undoStep inst st p).beds = st.beds := by
  simp only [undoStep]
  split_ifs with h
  · exact undo_fold_beds p (spanList (inst.patientAt p)) st
  · rfl

theorem undoStep_tempo (inst : PASUInstance) (st : BuildState) (p a b : Nat) :
    (undoStep inst st p).beds_tempo a b
      = st.beds_tempo a b + (if regCond inst st p then (coverCnt inst st p a b : Int) else 0) := by
  have hcc : (coverCnt inst st p a b : Int)
      = (if (inst.patientAt p).aday ≤ b ∧ b < (inst.patientAt p).valid_dday ∧
            st.schedule p (b + 1) = a ∧ a ≠ 199 then (1 : Int) else 0) := by
    simp only [coverCnt]
    split_ifs <;> simp
  simp only [undoStep]
  by_cases h : regCond inst st p
  · have h' : st.schedule p 0 = REGISTERED ∧
        (inst.patientAt p).aday ≠ (inst.patientAt p).rday := h
    rw [if_pos h', if_pos h, undo_fold_tempo]
    unfold spanList
    rw [count_range', hcc]
    by_cases h1 : st.schedule p (b + 1) = a ∧ a ≠ 199
    · rw [if_pos h1]
      by_cases h2 : (inst.patientAt p).aday ≤ b ∧
          b < (inst.patientAt p).aday +
            ((inst.patientAt p).valid_dday - (inst.patientAt p).aday)
      · rw [if_pos h2, if_pos ⟨h2.1, by omega, h1.1, h1.2⟩]
        simp
      · rw [if_neg h2, if_neg (by rintro ⟨hx1, hx2, _, _⟩; exact h2 ⟨hx1, by omega⟩)]
        simp
    · rw [if_neg h1, if_neg (by rintro ⟨_, _, hx3, hx4⟩; exact h1 ⟨hx3, hx4⟩)]
  · have h' : ¬(st.schedule p 0 = REGISTERED ∧
        (inst.patientAt p).aday ≠ (inst.patientAt p).rday) := h
    rw [if_neg h', if_neg h]
    omega

theorem regCond_sched_eq (inst : PASUInstance) {st st' : BuildState}
    (h : st'.schedule = st.schedule) (p : Nat) :
    regCond inst st' p ↔ regCond inst st p := by
  unfold regCond
  rw [h]

theorem coverCnt_sched_eq (inst : PASUInstance) {st st' : BuildState}
    (h : st'.schedule = st.schedule) (p r i : Nat) :
    coverCnt inst st' p r i = coverCnt inst st p r i := by
  unfold coverCnt
  rw [h]

theorem undoPrefix_succ (inst : PASUInstance) (st : BuildState) (u : Nat) :
    undoPrefix inst st (u + 1) = undoStep inst (undoPrefix inst st u) u := by
  unfold undoPrefix
  rw [List.range_succ, List.foldl_append, List.foldl_cons, List.foldl_nil]

theorem undoPrefix_sched (inst : PASUInstance) (st : BuildState) :
    ∀ u, (undoPrefix inst st u).schedule = st.schedule := by
  intro u
  induction u with
  | zero => rfl
  | succ u ih => rw [undoPrefix_succ, undoStep_sched, ih]

theorem undoPrefix_beds (inst : PASUInstance) (st : BuildState) :
    ∀ u, (undoPrefix inst st u).beds = st.beds := by
  intro u
  induction u with
  | zero => rfl
  | succ u ih => rw [undoPrefix_succ, undoStep_beds, ih]

theorem undoPrefix_bounds (inst : PASUInstance) (st : BuildState) (bound : Nat → Nat → Int)
    (h0 : ∀ r i, 0 ≤ st.beds_tempo r i)
    (hB : ∀ r i, st.beds_tempo r i
        + (regHold inst st (List.range inst.num_patients) r i : Int) ≤ bound r i) :
    ∀ u, u ≤ inst.num_patients →
      (∀ r i, 0 ≤ (undoPrefix inst st u).beds_tempo r i)
      ∧ (∀ r i, (undoPrefix inst st u).beds_tempo r i
          + (regHold inst st (List.range' u (inst.num_patients - u)) r i : Int) ≤ bound r i) := by
  intro u
  induction u with
  | zero =>
    intro _
    refine ⟨h0, fun r i => ?_⟩
    have := hB r i
    rw [List.range_eq_range'] at this
    simpa using this
  | succ u ih =>
    intro hle
    obtain ⟨ih1, ih2⟩ := ih (by omega)
    have hsch := undoPrefix_sched inst st u
    constructor
    · intro r i
      rw [undoPrefix_succ, undoStep_tempo]
      have h1 := ih1 r i
      split_ifs <;> omega
    · intro r i
      rw [undoPrefix_succ, undoStep_tempo]
      have h2 := ih2 r i
      have hsplit : inst.num_patients - u = (inst.num_patients - (u + 1)) + 1 := by omega
      rw [hsplit, List.range'_succ, regHold_cons] at h2
      rw [if_congr (regCond_sched_eq inst hsch u) rfl rfl]
      rw [coverCnt_sched_eq inst hsch]
      by_cases hrc : regCond inst st u
      · rw [if_pos hrc] at h2 ⊢
        push_cast at h2 ⊢
        omega
      · rw [if_neg hrc] at h2 ⊢
        push_cast at h2 ⊢
        omega

/- ### One day preserves the ledger bounds -/

theorem update_tempo_cell (inst : PASUInstance) (st : BuildState) (r d : Nat) :
    (update_tempo_room_capacity inst st).beds_tempo r d
      = if r < inst.num_rooms ∧ d < inst.num_days then st.beds r d else st.beds_tempo r d := rfl

theorem update_tempo_beds (inst : PASUInstance) (st : BuildState) :
    (update_tempo_room_capacity inst st).beds = st.beds := rfl

theorem update_tempo_sched (inst : PASUInstance) (st : BuildState) :
    (update_tempo_room_capacity inst st).schedule = st.schedule := rfl

theorem update_room_cell (inst : PASUInstance) (st : BuildState) (r d : Nat) :
    (update_room_capacity inst st).beds r d
      = if r < inst.num_rooms ∧ d < inst.num_days then st.beds_tempo r d else st.beds r d := rfl

theorem update_room_tempo (inst : PASUInstance) (st : BuildState) :
    (update_room_capacity inst st).beds_tempo = st.beds_tempo := rfl

theorem update_room_sched (inst : PASUInstance) (st : BuildState) :
    (update_room_capacity inst st).schedule = st.schedule := rfl

theorem reset_beds (inst : PASUInstance) (st : BuildState) :
    (reset_schedule inst st).beds = st.beds := rfl

theorem reset_tempo (inst : PASUInstance) (st : BuildState) :
    (reset_schedule inst st).beds_tempo = st.beds_tempo := rfl

theorem good_reset (inst : PASUInstance) (st : BuildState) (h : GoodState inst st) :
    GoodState inst (reset_schedule inst st) := h

theorem update_tempo_nonneg (inst : PASUInstance) (st : BuildState) (hG : GoodState inst st) :
    ∀ r i, 0 ≤ (update_tempo_room_capacity inst st).beds_tempo r i := by
  intro r i
  rw [update_tempo_cell]
  split_ifs
  · exact hG.1 r i
  · exact hG.2.1 r i

theorem runDay_good (inst : PASUInstance) (rng : Nat → Nat) (da : Nat) (st : BuildState)
    (k : Nat) (hG : GoodState inst st) :
    GoodState inst (runDay inst rng da st k).2.1 := by
  have hAnn := update_tempo_nonneg inst st hG
  have harr := arrangePrefix_inv inst rng da (update_tempo_room_capacity inst st) k hAnn
    inst.num_patients
  rcases hres : arrange_patients inst rng da (update_tempo_room_capacity inst st) k
    with ⟨t, st1, k1⟩
  have hres' : arrangePrefix inst rng da (update_tempo_room_capacity inst st) k
      inst.num_patients = (t, st1, k1) := hres
  rw [hres'] at harr
  dsimp only at harr
  obtain ⟨h1beds, h1nn, h1le, h1hold⟩ := harr
  show GoodState inst
    ((match arrange_patients inst rng da (update_tempo_room_capacity inst st) k with
      | (true, s, kk) => (true, update_room_capacity inst (undoRegistered inst s), kk)
      | (false, s, kk) => (false, s, kk)).2.1)
  rw [hres]
  have h1le' : ∀ r i, r < inst.num_rooms → i < inst.num_days →
      st1.beds_tempo r i ≤ capOf inst r := by
    intro r i hr hi
    have := h1le r i
    rw [update_tempo_cell, if_pos ⟨hr, hi⟩] at this
    have := (hG.2.2 r i hr hi).1
    omega
  cases t with
  | false =>
    dsimp only
    refine ⟨?_, h1nn, ?_⟩
    · intro r i
      rw [h1beds, update_tempo_beds]
      exact hG.1 r i
    · intro r i hr hi
      refine ⟨?_, h1le' r i hr hi⟩
      rw [h1beds, update_tempo_beds]
      exact (hG.2.2 r i hr hi).1
  | true =>
    dsimp only
    unfold undoRegistered
    have hund := undoPrefix_bounds inst st1 (update_tempo_room_capacity inst st).beds_tempo
      h1nn (h1hold rfl) inst.num_patients (le_refl _)
    obtain ⟨hu1, hu2⟩ := hund
    have hufin : ∀ r i, (undoPrefix inst st1 inst.num_patients).beds_tempo r i
        ≤ (update_tempo_room_capacity inst st).beds_tempo r i := by
      intro r i
      have := hu2 r i
      rw [Nat.sub_self] at this
      simp only [regHold, List.range', List.map_nil, List.sum_nil] at this
      omega
    have hucap : ∀ r i, r < inst.num_rooms → i < inst.num_days →
        (undoPrefix inst st1 inst.num_patients).beds_tempo r i ≤ capOf inst r := by
      intro r i hr hi
      have h1 := hufin r i
      rw [update_tempo_cell, if_pos ⟨hr, hi⟩] at h1
      have h2 := (hG.2.2 r i hr hi).1
      omega
    refine ⟨?_, ?_, ?_⟩
    · intro r i
      rw [update_room_cell]
      split_ifs
      · exact hu1 r i
      · rw [undoPrefix_beds, h1beds, update_tempo_beds]
        exact hG.1 r i
    · intro r i
      rw [update_room_tempo]
      exact hu1 r i
    · intro r i hr hi
      constructor
      · rw [update_room_cell, if_pos ⟨hr, hi⟩]
        exact hucap r i hr hi
      · rw [update_room_tempo]
        exact hucap r i hr hi

/- ### Composition over days, attempts and the whole run -/

theorem dayPrefix_succ (inst : PASUInstance) (rng : Nat → Nat) (st : BuildState) (k m : Nat) :
    dayPrefix inst rng st k (m + 1) = dayStep inst rng (dayPrefix inst rng st k m) m := by
  unfold dayPrefix
  rw [List.range_succ, List.foldl_append, List.foldl_cons, List.foldl_nil]

theorem dayStep_good (inst : PASUInstance) (rng : Nat → Nat) (acc : Bool × BuildState × Nat)
    (da : Nat) (h : GoodState inst acc.2.1) :
    GoodState inst (dayStep inst rng acc da).2.1 := by
  rcases acc with ⟨t, st, k⟩
  cases t with
  | false => exact h
  | true => exact runDay_good inst rng da st k h

theorem dayPrefix_good (inst : PASUInstance) (rng : Nat → Nat) (st : BuildState) (k : Nat)
    (h : GoodState inst st) :
    ∀ m, GoodState inst (dayPrefix inst rng st k m).2.1 := by
  intro m
  induction m with
  | zero => exact h
  | succ m ih =>
    rw [dayPrefix_succ]
    exact dayStep_good inst rng _ m ih

theorem runAttempt_good (inst : PASUInstance) (rng : Nat → Nat) (st : BuildState) (k : Nat)
    (h : GoodState inst st) :
    GoodState inst (runAttempt inst rng st k).2.1 :=
  dayPrefix_good inst rng st k h inst.num_days

theorem initState_good (inst : PASUInstance) : GoodState inst (initState inst) := by
  refine ⟨?_, ?_, ?_⟩
  · intro r d
    simp only [initState]
    split_ifs
    · exact Int.natCast_nonneg _
    · exact le_refl 0
  · intro r d
    exact le_refl 0
  · intro r d hr hd
    constructor
    · simp only [initState]
      rw [if_pos ⟨hr, hd⟩]
      exact le_refl _
    · exact Int.natCast_nonneg _

theorem attemptsIter_good (inst : PASUInstance) (rng : Nat → Nat) :
    ∀ j, GoodState inst (attemptsIter inst rng j).1 := by
  intro j
  induction j with
  | zero => exact initState_good inst
  | succ j ih =>
    show GoodState inst (runAttempt inst rng
      (reset_schedule inst (attemptsIter inst rng j).1) (attemptsIter inst rng j).2).2.1
    exact runAttempt_good _ _ _ _ (good_reset inst _ ih)

theorem genLoop_good (inst : PASUInstance) (rng : Nat → Nat) :
    ∀ (fuel : Nat) (st : BuildState) (k : Nat), GoodState inst st →
      GoodState inst (genLoop inst rng fuel st k).2.1 := by
  intro fuel
  induction fuel with
  | zero => intro st k h; exact h
  | succ fuel ih =>
    intro st k h
    show GoodState inst ((match runAttempt inst rng (reset_schedule inst st) k with
      | (t, st1, k1) =>
        if inst.num_days ≠ 1 ∧ t = true then (10000 - (fuel + 1), st1, k1)
        else genLoop inst rng fuel st1 k1).2.1)
    rcases hr : runAttempt inst rng (reset_schedule inst st) k with ⟨t, st1, k1⟩
    have hg1 : GoodState inst st1 := by
      have hgood := runAttempt_good inst rng (reset_schedule inst st) k (good_reset inst st h)
      rw [hr] at hgood
      exact hgood
    dsimp only
    split_ifs
    · exact hg1
    · exact ih st1 k1 hg1

theorem arrangePrefix_good (inst : PASUInstance) (rng : Nat → Nat) (d : Nat) (st : BuildState)
    (k : Nat) (hG : GoodState inst st) (q : Nat) :
    GoodState inst (arrangePrefix inst rng d (update_tempo_room_capacity inst st) k q).2.1 := by
  have hAnn := update_tempo_nonneg inst st hG
  obtain ⟨hbeds, hnn, hle, _⟩ :=
    arrangePrefix_inv inst rng d (update_tempo_room_capacity inst st) k hAnn q
  refine ⟨?_, hnn, ?_⟩
  · intro r i
    rw [hbeds, update_tempo_beds]
    exact hG.1 r i
  · intro r i hr hi
    constructor
    · rw [hbeds, update_tempo_beds]
      exact (hG.2.2 r i hr hi).1
    · have h1 := hle r i
      rw [update_tempo_cell, if_pos ⟨hr, hi⟩] at h1
      have h2 := (hG.2.2 r i hr hi).1
      omega

theorem undoPrefix_good (inst : PASUInstance) (rng : Nat → Nat) (d : Nat) (st : BuildState)
    (k u : Nat) (hG : GoodState inst st) (hu : u ≤ inst.num_patients)
    (hflag : (arrangePrefix inst rng d (update_tempo_room_capacity inst st) k
      inst.num_patients).1 = true) :
    GoodState inst (undoPrefix inst
      (arrangePrefix inst rng d (update_tempo_room_capacity inst st) k
        inst.num_patients).2.1 u) := by
  have hAnn := update_tempo_nonneg inst st hG
  obtain ⟨hbeds, hnn, hle, hhold⟩ :=
    arrangePrefix_inv inst rng d (update_tempo_room_capacity inst st) k hAnn inst.num_patients
  obtain ⟨hu1, hu2⟩ := undoPrefix_bounds inst _
    (update_tempo_room_capacity inst st).beds_tempo hnn (hhold hflag) u hu
  refine ⟨?_, hu1, ?_⟩
  · intro r i
    rw [undoPrefix_beds, hbeds, update_tempo_beds]
    exact hG.1 r i
  · intro r i hr hi
    constructor
    · rw [undoPrefix_beds, hbeds, update_tempo_beds]
      exact (hG.2.2 r i hr hi).1
    · have h2 := hu2 r i
      rw [update_tempo_cell, if_pos ⟨hr, hi⟩] at h2
      have h3 := (hG.2.2 r i hr hi).1
      omega

/-- C2: at every point of the construction — after every attempt restart,
after every day, after every placement inside the patient loop, after every
release inside the release loop, and at the end of `generate_ini_solution` —
every authoritative and working ledger cell of a real room and day satisfies
`0 ≤ cell ≤ capacity`, and no cell anywhere is ever negative. -/
theorem C2_ledger_bounds (inst : PASUInstance) (rng : Nat → Nat) :
    (∀ j, GoodState inst (attemptsIter inst rng j).1)
    ∧ (∀ j m, GoodState inst (dayStateAt inst rng j m).2.1)
    ∧ (∀ j m q, GoodState inst (arrangeStateAt inst rng j m q).2.1)
    ∧ (∀ j m u, u ≤ inst.num_patients →
        (arrangeStateAt inst rng j m inst.num_patients).1 = true →
        GoodState inst (undoStateAt inst rng j m u))
    ∧ GoodState inst (generate_ini_solution inst rng (initState inst) 0).2.1 := by
  have hA := attemptsIter_good inst rng
  have hDay : ∀ j m, GoodState inst (dayStateAt inst rng j m).2.1 := by
    intro j m
    exact dayPrefix_good inst rng _ _ (good_reset inst _ (hA j)) m
  refine ⟨hA, hDay, ?_, ?_, ?_⟩
  · intro j m q
    exact arrangePrefix_good inst rng m _ _ (hDay j m) q
  · intro j m u hu hflag
    exact undoPrefix_good inst rng m _ _ u (hDay j m) hu hflag
  · exact genLoop_good inst rng 10000 (initState inst) 0 (initState_good inst)

/-- Witness for C2: on the concrete one-patient instance the day-0 patient
loop succeeds, and the mid-release state after one released patient satisfies
the ledger bounds. -/
theorem C2_ledger_bounds_witness :
    1 ≤ instFeas.num_patients
    ∧ (arrangeStateAt instFeas rng0 0 0 instFeas.num_patients).1 = true
    ∧ GoodState instFeas (undoStateAt instFeas rng0 0 0 1) :=
  ⟨by decide, by decide,
    (C2_ledger_bounds instFeas rng0).2.2.2.1 0 0 1 (by decide) (by decide)⟩

/- ### Hard-constraint soundness of the constructor (C1) -/

theorem admOK_sched_eq (inst : PASUInstance) {st st' : BuildState}
    (h : st'.schedule = st.schedule) (hOK : AdmOK inst st) : AdmOK inst st' := by
  intro p hp hstat
  rw [h] at hstat
  obtain ⟨r, hr, hcells⟩ := hOK p hp hstat
  refine ⟨r, hr, fun i h1 h2 => ?_⟩
  rw [h]
  exact hcells i h1 h2

theorem updStatus_sched_self (inst : PASUInstance) (stq : BuildState) (q d i : Nat) :
    (updStatus inst stq q d).schedule q i
      = if i = 0 then
          (if d = (inst.patientAt q).aday then ADMITTED
           else if d = (inst.patientAt q).rday then REGISTERED
           else if d = (inst.patientAt q).valid_dday then DISCHARGED
           else stq.schedule q 0)
        else stq.schedule q i := by
  by_cases hi : i = 0
  · subst hi
    simp only [updStatus, setSched, if_pos rfl]
    split_ifs <;> simp
  · simp only [updStatus, setSched]
    rw [if_neg hi]
    split_ifs <;> simp [hi]

theorem arrangeStep_admOK (inst : PASUInstance) (rng : Nat → Nat) (d : Nat)
    (stq : BuildState) (kq q : Nat) (hOK : AdmOK inst stq)
    (hres : (arrangeStep inst rng d (true, stq, kq) q).1 = true) :
    AdmOK inst (arrangeStep inst rng d (true, stq, kq) q).2.1 := by
  simp only [arrangeStep] at hres ⊢
  by_cases hC : ((updStatus inst stq q d).schedule q 0 = ADMITTED ∧
        d = (inst.patientAt q).aday)
      ∨ ((updStatus inst stq q d).schedule q 0 = REGISTERED ∧
        (inst.patientAt q).aday ≠ (inst.patientAt q).rday)
  · rw [if_pos hC] at hres ⊢
    rcases htr : tryRooms inst (updStatus inst stq q d) q (rng kq % inst.num_rooms)
      with _ | st2
    · rw [htr] at hres
      exact absurd hres (by simp)
    · dsimp only
      obtain ⟨rm, hfits, hst2⟩ := tryRooms_some inst _ q _ st2 htr
      subst hst2
      obtain ⟨hspan, _, havail⟩ := roomFits_spec inst _ q rm hfits
      intro p hp hstat
      by_cases hpq : p = q
      · subst hpq
        refine ⟨rm, havail, fun i h1 h2 => ?_⟩
        rw [placeRoom_sched, if_pos ⟨rfl, by omega⟩]
      · have hrows : ∀ i, (placeRoom inst (updStatus inst stq q d) q rm).schedule p i
            = stq.schedule p i := by
          intro i
          rw [placeRoom_sched, if_neg (fun hc => hpq hc.1)]
          exact updStatus_sched_other inst stq q d p i (fun hc => hpq hc.1)
        rw [hrows 0] at hstat
        obtain ⟨r, hr, hcells⟩ := hOK p hp hstat
        refine ⟨r, hr, fun i h1 h2 => ?_⟩
        rw [hrows (i + 1)]
        exact hcells i h1 h2
  · rw [if_neg hC] at hres ⊢
    dsimp only
    intro p hp hstat
    by_cases hpq : p = q
    · subst hpq
      rw [updStatus_sched_self, if_pos rfl] at hstat
      by_cases h1 : d = (inst.patientAt p).aday
      · rw [if_pos h1] at hstat
        exact absurd (Or.inl ⟨by rw [updStatus_sched_self, if_pos rfl, if_pos h1], h1⟩) hC
      · rw [if_neg h1] at hstat
        by_cases h2 : d = (inst.patientAt p).rday
        · rw [if_pos h2] at hstat
          exact absurd hstat (by decide)
        · rw [if_neg h2] at hstat
          by_cases h3 : d = (inst.patientAt p).valid_dday
          · rw [if_pos h3] at hstat
            exact absurd hstat (by decide)
          · rw [if_neg h3] at hstat
            obtain ⟨r, hr, hcells⟩ := hOK p hp hstat
            refine ⟨r, hr, fun i hi1 hi2 => ?_⟩
            rw [updStatus_sched_self, if_neg (by omega)]
            exact hcells i hi1 hi2
    · rw [updStatus_sched_other inst stq q d p 0 (fun hc => hpq hc.1)] at hstat
      obtain ⟨r, hr, hcells⟩ := hOK p hp hstat
      refine ⟨r, hr, fun i hi1 hi2 => ?_⟩
      rw [updStatus_sched_other inst stq q d p (i + 1) (fun hc => hpq hc.1)]
      exact hcells i hi1 hi2

theorem arrangePrefix_admOK (inst : PASUInstance) (rng : Nat → Nat) (d : Nat)
    (st0 : BuildState) (k0 : Nat) (hOK : AdmOK inst st0) :
    ∀ q, (arrangePrefix inst rng d st0 k0 q).1 = true →
      AdmOK inst (arrangePrefix inst rng d st0 k0 q).2.1 := by
  intro q
  induction q with
  | zero => intro _; exact hOK
  | succ q ih =>
    rw [arrangePrefix_succ]
    rcases hacc : arrangePrefix inst rng d st0 k0 q with ⟨t, stq, kq⟩
    cases t with
    | false =>
      rw [arrangeStep_false]
      intro hres
      exact absurd hres (by simp)
    | true =>
      intro hres
      have hOKq : AdmOK inst stq := by
        have := ih (by rw [hacc])
        rw [hacc] at this
        exact this
      exact arrangeStep_admOK inst rng d stq kq q hOKq hres

theorem runDay_admOK (inst : PASUInstance) (rng : Nat → Nat) (da : Nat) (st : BuildState)
    (k : Nat) (hOK : AdmOK inst st)
    (hres : (runDay inst rng da st k).1 = true) :
    AdmOK inst (runDay inst rng da st k).2.1 := by
  have hOKA : AdmOK inst (update_tempo_room_capacity inst st) :=
    admOK_sched_eq inst (update_tempo_sched inst st) hOK
  rcases hr : arrange_patients inst rng da (update_tempo_room_capacity inst st) k
    with ⟨t, st1, k1⟩
  have hrunDay : runDay inst rng da st k
      = (match (t, st1, k1) with
        | (true, s, kk) => (true, update_room_capacity inst (undoRegistered inst s), kk)
        | (false, s, kk) => (false, s, kk)) := by
    rw [← hr]
    rfl
  rw [hrunDay] at hres ⊢
  cases t with
  | false => exact absurd hres (by simp)
  | true =>
    dsimp only
    have hOK1 : AdmOK inst st1 := by
      have h1 := arrangePrefix_admOK inst rng da (update_tempo_room_capacity inst st) k hOKA
        inst.num_patients (by rw [show arrangePrefix inst rng da
          (update_tempo_room_capacity inst st) k inst.num_patients
            = arrange_patients inst rng da (update_tempo_room_capacity inst st) k from rfl, hr])
      rw [show arrangePrefix inst rng da (update_tempo_room_capacity inst st) k
          inst.num_patients
            = arrange_patients inst rng da (update_tempo_room_capacity inst st) k from rfl,
        hr] at h1
      exact h1
    refine admOK_sched_eq inst ?_ hOK1
    rw [update_room_sched]
    unfold undoRegistered
    rw [undoPrefix_sched]

theorem dayPrefix_admOK (inst : PASUInstance) (rng : Nat → Nat) (st : BuildState) (k : Nat)
    (hOK : AdmOK inst st) :
    ∀ m, (dayPrefix inst rng st k m).1 = true →
      AdmOK inst (dayPrefix inst rng st k m).2.1 := by
  intro m
  induction m with
  | zero => intro _; exact hOK
  | succ m ih =>
    rw [dayPrefix_succ]
    rcases hacc : dayPrefix inst rng st k m with ⟨t, stm, km⟩
    cases t with
    | false =>
      intro hres
      exact absurd hres (by simp [dayStep])
    | true =>
      intro hres
      have hOKm : AdmOK inst stm := by
        have := ih (by rw [hacc])
        rw [hacc] at this
        exact this
      exact runDay_admOK inst rng m stm km hOKm hres

theorem admOK_reset (inst : PASUInstance) (st : BuildState) :
    AdmOK inst (reset_schedule inst st) := by
  intro p hp hstat
  have : (reset_schedule inst st).schedule p 0 = UNREGISTERED := by
    simp only [reset_schedule]
    rw [if_pos (show _ ∧ _ from ⟨hp, by trivial⟩)]
  rw [this] at hstat
  exact absurd hstat (by decide)

theorem genLoop_admOK (inst : PASUInstance) (rng : Nat → Nat) :
    ∀ (fuel : Nat) (st : BuildState) (k : Nat),
      (genLoop inst rng fuel st k).1 < 10000 →
      AdmOK inst (genLoop inst rng fuel st k).2.1 := by
  intro fuel
  induction fuel with
  | zero =>
    intro st k h
    exact absurd h (by simp [genLoop])
  | succ fuel ih =>
    intro st k h
    rcases hr : runAttempt inst rng (reset_schedule inst st) k with ⟨t, st1, k1⟩
    have hloop : genLoop inst rng (fuel + 1) st k
        = (if inst.num_days ≠ 1 ∧ t = true then (10000 - (fuel + 1), st1, k1)
           else genLoop inst rng fuel st1 k1) := by
      show (match runAttempt inst rng (reset_schedule inst st) k with
        | (t, st1, k1) =>
          if inst.num_days ≠ 1 ∧ t = true then (10000 - (fuel + 1), st1, k1)
          else genLoop inst rng fuel st1 k1) = _
      rw [hr]
    rw [hloop] at h ⊢
    by_cases hc : inst.num_days ≠ 1 ∧ t = true
    · rw [if_pos hc]
      have hday := dayPrefix_admOK inst rng (reset_schedule inst st) k
        (admOK_reset inst st) inst.num_days (by rw [show dayPrefix inst rng
          (reset_schedule inst st) k inst.num_days
            = runAttempt inst rng (reset_schedule inst st) k from rfl, hr, hc.2])
      rw [show dayPrefix inst rng (reset_schedule inst st) k inst.num_days
          = runAttempt inst rng (reset_schedule inst st) k from rfl, hr] at hday
      exact hday
    · rw [if_neg hc] at h ⊢
      exact ih st1 k1 h

/-- C1: whenever the initial construction succeeds (the attempt loop breaks
before exhausting its budget), every patient whose final status is ADMITTED
is assigned, on every day of its stay span `[aday, valid_dday)`, one single
room r, the same r across the whole span, and `available(p, r)` holds. -/
theorem C1_construction_sound (inst : PASUInstance) (rng : Nat → Nat)
    (h : (generate_ini_solution inst rng (initState inst) 0).1 < 10000) :
    ∀ p, p < inst.num_patients →
      (generate_ini_solution inst rng (initState inst) 0).2.1.schedule p 0 = ADMITTED →
      ∀ d, (inst.patientAt p).aday ≤ d → d < (inst.patientAt p).valid_dday →
        ∃ r, (generate_ini_solution inst rng (initState inst) 0).2.1.schedule p (d + 1) = r
          ∧ patient_room_availability inst p r = true
          ∧ ∀ d', (inst.patientAt p).aday ≤ d' → d' < (inst.patientAt p).valid_dday →
              (generate_ini_solution inst rng (initState inst) 0).2.1.schedule p (d' + 1) = r := by
  have hOK := genLoop_admOK inst rng 10000 (initState inst) 0 h
  intro p hp hstat d hd1 hd2
  obtain ⟨r, hr, hcells⟩ := hOK p hp hstat
  exact ⟨r, hcells d hd1 hd2, hr, hcells⟩

/-- Witness for C1: on the concrete feasible instance the constructor breaks
on attempt 0, patient 0 ends ADMITTED, and the theorem instantiates at day 0. -/
theorem C1_construction_sound_witness :
    (generate_ini_solution instFeas rng0 (initState instFeas) 0).1 < 10000
    ∧ 0 < instFeas.num_patients
    ∧ (generate_ini_solution instFeas rng0 (initState instFeas) 0).2.1.schedule 0 0 = ADMITTED
    ∧ (instFeas.patientAt 0).aday ≤ 0
    ∧ 0 < (instFeas.patientAt 0).valid_dday
    ∧ ∃ r, (generate_ini_solution instFeas rng0 (initState instFeas) 0).2.1.schedule 0 (0 + 1) = r
        ∧ patient_room_availability instFeas 0 r = true
        ∧ ∀ d', (instFeas.patientAt 0).aday ≤ d' → d' < (instFeas.patientAt 0).valid_dday →
            (generate_ini_solution instFeas rng0 (initState instFeas) 0).2.1.schedule 0 (d' + 1) = r :=
  ⟨by decide, by decide, by decide, by decide, by decide,
    C1_construction_sound instFeas rng0 (by decide) 0 (by decide) (by decide) 0
      (by decide) (by decide)⟩


/- ### C3, C4, C9: concrete refutations -/

/-- C3: refuted — `calculate_cost` adds each patient's room cost once while
the lower bound multiplies that same minimum cost by the stay length, so on
the feasible one-patient instance (stay of 2 days, cheapest room cost 20)
the program constructs a schedule and reports total cost 20, strictly below
its own lower bound 40. -/
theorem C3_cost_undershoots_lower_bound :
    (pasu_main instFeas rng0).gen_attempts < 10000
    ∧ (pasu_main instFeas rng0).total_cost = 20
    ∧ lower_bound instFeas = 40
    ∧ (pasu_main instFeas rng0).total_cost < lower_bound instFeas := by
  decide

/-- C4: refuted — on `inst4` the first attempt fails (day 1), yet the state
handed to the second attempt still carries the failed attempt's work: the
status column is cleared, but patient 0's day-0 cell keeps room 0 instead of
the unassigned fill 199 (the schedule `resize` is a no-op), and the
authoritative ledger cell stays at 0 instead of the pre-attempt capacity 1
(`beds` is never restored on failure). -/
theorem C4_restart_keeps_stale_state :
    (runAttempt inst4 rng0 (reset_schedule inst4 (initState inst4)) 0).1 = false
    ∧ (reset_schedule inst4 (attemptsIter inst4 rng0 1).1).schedule 0 0 = UNREGISTERED
    ∧ (reset_schedule inst4 (attemptsIter inst4 rng0 1).1).schedule 0 1 = 0
    ∧ (initState inst4).schedule 0 1 = 199
    ∧ (reset_schedule inst4 (attemptsIter inst4 rng0 1).1).beds 0 0 = 0
    ∧ (initState inst4).beds 0 0 = 1 := by
  decide

/-- C9: refuted — the global MAX_CAPACITY is declared but never assigned, so
a `*` (unbounded) preferred capacity is stored as 0, which IS less than any
room capacity of at least 1: on `inst9` the cost contains exactly the
PREFERENCE_WEIGHT term the claim says cannot occur. -/
theorem C9_star_capacity_is_penalised :
    MAX_CAPACITY = 0
    ∧ (inst9.patientAt 0).preferred_cap = MAX_CAPACITY
    ∧ total_patient_room_cost inst9 0 0 = PREFERENCE_WEIGHT := by
  decide

/- ### C5: the attempt budget runs out silently -/

theorem roomFits_C5 (st : BuildState) : roomFits instC5 st 0 0 = false := by
  have h : patient_room_availability instC5 0 0 = false := by decide
  simp only [roomFits]
  rw [h, Bool.and_false]

theorem tryRooms_C5 (st : BuildState) : tryRooms instC5 st 0 0 = none := by
  show (if roomFits instC5 st 0 0 = true then some (placeRoom instC5 st 0 0)
        else tryRoomsDesc instC5 st 0 instC5.num_rooms) = none
  rw [roomFits_C5]
  have h1 : instC5.num_rooms = 1 := rfl
  rw [if_neg (by simp), h1]
  show (if roomFits instC5 st 0 0 = true then some (placeRoom instC5 st 0 0)
        else tryRoomsDesc instC5 st 0 0) = none
  rw [roomFits_C5, if_neg (by simp)]
  rfl

theorem arrange_C5 (st : BuildState) (k : Nat) :
    (arrange_patients instC5 rng0 0 st k).1 = false := by
  show (arrangeStep instC5 rng0 0 (true, st, k) 0).1 = false
  show ((if ((updStatus instC5 st 0 0).schedule 0 0 = ADMITTED ∧ 0 = (instC5.patientAt 0).aday) ∨
          ((updStatus instC5 st 0 0).schedule 0 0 = REGISTERED ∧
            (instC5.patientAt 0).aday ≠ (instC5.patientAt 0).rday) then
        match tryRooms instC5 (updStatus instC5 st 0 0) 0 (rng0 k % instC5.num_rooms) with
        | some st2 => (true, st2, k + 1)
        | none => (false, updStatus instC5 st 0 0, k + 1)
      else (true, updStatus instC5 st 0 0, k)) : Bool × BuildState × Nat).1 = false
  have hstat : (updStatus instC5 st 0 0).schedule 0 0 = ADMITTED := by
    have ha : (instC5.patientAt 0).aday = 0 := rfl
    simp only [updStatus, setSched, ha]
    simp
  rw [if_pos (Or.inl ⟨hstat, rfl⟩)]
  have htr : tryRooms instC5 (updStatus instC5 st 0 0) 0 (rng0 k % instC5.num_rooms) = none := by
    have : rng0 k % instC5.num_rooms = 0 := rfl
    rw [this]
    exact tryRooms_C5 (updStatus instC5 st 0 0)
  rw [htr]

theorem runDay_C5 (st : BuildState) (k : Nat) : (runDay instC5 rng0 0 st k).1 = false := by
  have h := arrange_C5 (update_tempo_room_capacity instC5 st) k
  show (match arrange_patients instC5 rng0 0 (update_tempo_room_capacity instC5 st) k with
        | (true, st1, k1) => (true, update_room_capacity instC5 (undoRegistered instC5 st1), k1)
        | (false, st1, k1) => (false, st1, k1)).1 = false
  rcases harr : arrange_patients instC5 rng0 0 (update_tempo_room_capacity instC5 st) k
    with ⟨t, st1, k1⟩
  rw [harr] at h
  have ht : t = false := h
  subst ht
  rfl

theorem runAttempt_C5 (st : BuildState) (k : Nat) :
    (runAttempt instC5 rng0 st k).1 = false := by
  have h := runDay_C5 st k
  show (dayStep instC5 rng0 (runDay instC5 rng0 0 st k) 1).1 = false
  rcases hr : runDay instC5 rng0 0 st k with ⟨t, st1, k1⟩
  rw [hr] at h
  have ht : t = false := h
  subst ht
  rfl

theorem genLoop_C5 : ∀ (fuel : Nat) (st : BuildState) (k : Nat),
    (genLoop instC5 rng0 fuel st k).1 = 10000 := by
  intro fuel
  induction fuel with
  | zero => intro st k; rfl
  | succ n ih =>
    intro st k
    show (match runAttempt instC5 rng0 (reset_schedule instC5 st) k with
          | (t, st1, k1) =>
            if instC5.num_days ≠ 1 ∧ t = true then (10000 - (n + 1), st1, k1)
            else genLoop instC5 rng0 n st1 k1).1 = 10000
    have h := runAttempt_C5 (reset_schedule instC5 st) k
    rcases hr : runAttempt instC5 rng0 (reset_schedule instC5 st) k with ⟨t, st1, k1⟩
    rw [hr] at h
    have ht : t = false := h
    subst ht
    dsimp only
    rw [if_neg (fun hc => Bool.false_ne_true hc.2)]
    exact ih st1 k1

theorem gen_exhausts_C5 : (generate_ini_solution instC5 rng0 (initState instC5) 0).1 = 10000 := by
  show (genLoop instC5 rng0 10000 (initState instC5) 0).1 = 10000
  exact genLoop_C5 10000 (initState instC5) 0

theorem pasu_main_gen_attempts (inst : PASUInstance) (rng : Nat → Nat) :
    (pasu_main inst rng).gen_attempts = (generate_ini_solution inst rng (initState inst) 0).1 := rfl

/-- C5 counterexample: on the infeasible instance `instC5` (its only patient
NEEDS a feature no room has) the constructor exhausts all 10000 attempts,
yet `main` ignores the returned failure: it still computes a cost from the
leftover state and exits 0 — no distinct InfeasibleInstance failure is
surfaced. -/
theorem C5_counterexample_exhaustion_is_silent :
    (pasu_main instC5 rng0).gen_attempts = 10000
    ∧ (pasu_main instC5 rng0).exit_code = 0 :=
  ⟨(pasu_main_gen_attempts instC5 rng0).trans gen_exhausts_C5, rfl⟩

/-- C5 (amended): the program has no failure path at all — for every
instance and random stream, `main` discards `generate_ini_solution`'s return
value, exits 0 and reports the cost of whatever state generation left
behind, whether or not the 10000-attempt budget was exhausted. -/
theorem C5_no_distinct_failure (inst : PASUInstance) (rng : Nat → Nat) :
    (pasu_main inst rng).exit_code = 0
    ∧ (pasu_main inst rng).gen_attempts = (generate_ini_solution inst rng (initState inst) 0).1
    ∧ (pasu_main inst rng).total_cost
        = calculate_cost inst (generate_ini_solution inst rng (initState inst) 0).2.1 :=
  ⟨rfl, rfl, rfl⟩

/-- Witness for C10: on `inst10` (stays [0,2) and [1,3), one shared day) the
overlap matrix holds the shared-day count 1 at both off-diagonal cells and 0
on the diagonal. -/
theorem C10_overlap_symmetric_witness :
    0 < inst10.num_patients ∧ 1 < inst10.num_patients
    ∧ sharedStayDays (inst10.patientAt 0) (inst10.patientAt 1) = 1
    ∧ ((0 ≠ 1 →
          compute_overlap inst10 0 1 = sharedStayDays (inst10.patientAt 0) (inst10.patientAt 1)
          ∧ compute_overlap inst10 1 0 = sharedStayDays (inst10.patientAt 0) (inst10.patientAt 1))
        ∧ compute_overlap inst10 0 0 = 0) :=
  ⟨by decide, by decide, by decide, C10_overlap_symmetric inst10 0 1 (by decide) (by decide)⟩

end PASU
